import Mathlib

/-!
Verification of the KinMS (KINematic Molecular Simulation) cube-generation
pipeline, a shallow embedding of `kinms/KinMS.py`.

Conventions of the embedding:
* numpy 1-d float arrays are `List ℚ`; IEEE-754 arithmetic is modelled by exact
  rational arithmetic (the standard idealisation), except where a claim is
  specifically about non-finite propagation, for which a separate
  `Option ℚ` model (`none` = non-finite) of the relevant lines is given.
* external transcendental library calls (`np.cos`, `np.sin`, `np.sqrt`,
  `np.arctan2`, the constant `np.pi`) are fields of a context structure
  `NumCtx`: they are arbitrary deterministic functions, exactly as the
  library supplies them.
* numpy broadcasting for binary elementwise operations on 1-d arrays is
  `npZip` (equal lengths pointwise, length-1 broadcast, otherwise a
  `ValueError`); boolean-mask fancy indexing is `npMask` (an ndarray index
  error is modelled as `PyErr.valueError` as well); assignment of an array
  into a column of `np.empty((n, 3))` is `npSetCol`.
* Python exceptions are `Except PyErr`; mutations of the `KinMS` instance
  that survive a call (only `nSamps`) are threaded through an explicit
  state `KState`.
-/

namespace KinMSpy

/-- Python exceptions raised by the pipeline: the single library error class
`KinMSError`, and errors raised from inside numpy (broadcast failures,
`np.interp` length mismatches, boolean-index mismatches), all of which are
distinct from `KinMSError`. -/
inductive PyErr where
  | kinmsError (msg : String) : PyErr
  | valueError (msg : String) : PyErr
deriving DecidableEq

/-- Result of a Python computation that may raise. -/
abbrev NpRes (α : Type) := Except PyErr α

/-- numpy broadcasting for a binary elementwise operation on two 1-d arrays:
equal lengths act pointwise, a length-1 operand broadcasts, anything else
raises a broadcast `ValueError`. -/
def npZip {α β γ : Type} (f : α → β → γ) (a : List α) (b : List β) :
    NpRes (List γ) :=
  if a.length = b.length then .ok (List.zipWith f a b)
  else
    match a, b with
    | [x], bs => .ok (bs.map (fun y => f x y))
    | as, [y] => .ok (as.map (fun x => f x y))
    | _, _ => .error (.valueError "operands could not be broadcast together")

/-- numpy boolean-mask indexing `a[mask]`: the mask must have the same length
as the array (otherwise numpy raises an IndexError, modelled as a
`valueError`). -/
def npMask {α : Type} (a : List α) (mask : List Bool) : NpRes (List α) :=
  if a.length = mask.length then
    .ok ((List.zip a mask).filterMap (fun p => if p.2 then some p.1 else none))
  else .error (.valueError "boolean index did not match indexed array")

/-- Assignment `out[:, j] = v` into a column of `np.empty((n, 3))`: the value
must have length `n` or broadcast from length 1, otherwise numpy raises
a broadcast `ValueError`. -/
def npSetCol {α : Type} (n : Nat) (v : List α) : NpRes (List α) :=
  if v.length = n then .ok v
  else
    match v with
    | [x] => .ok (List.replicate n x)
    | _ => .error (.valueError "could not broadcast input array")

/-- Piecewise-linear interpolation through consecutive points, clamped to the
last value beyond the right endpoint (the scan of `np.interp`). -/
def interpSeg : List (ℚ × ℚ) → ℚ → ℚ
  | [], _ => 0
  | [p], _ => p.2
  | p :: q :: rest, x =>
    if x ≤ q.1 then p.2 + (q.2 - p.2) * (x - p.1) / (q.1 - p.1)
    else interpSeg (q :: rest) x

/-- `np.interp` at one sample point: clamped to `fp[0]` left of the grid,
linear interpolation inside, clamped to the last value on the right. -/
def npInterpPoint (xp fp : List ℚ) (x : ℚ) : ℚ :=
  match xp, fp with
  | x0 :: _, y0 :: _ => if x ≤ x0 then y0 else interpSeg (List.zip xp fp) x
  | _, _ => 0

/-- `np.interp(x, xp, fp)`: raises `ValueError` when `xp` and `fp` have
different lengths or the sample grid is empty, otherwise interpolates each
entry of `x`. -/
def npInterp (x xp fp : List ℚ) : NpRes (List ℚ) :=
  if xp.length ≠ fp.length then
    .error (.valueError "fp and xp are not of the same length")
  else if xp.length = 0 then
    .error (.valueError "array of sample points is empty")
  else .ok (x.map (npInterpPoint xp fp))

/-- Running trapezoid sums over a nonempty point list (helper for
`scipy.integrate.cumtrapz`), carrying the accumulated integral. -/
def cumtrapzAux : ℚ → ℚ × ℚ → List (ℚ × ℚ) → List ℚ
  | _, _, [] => []
  | acc, p, q :: rest =>
    (acc + (q.1 - p.1) * (q.2 + p.2) / 2) ::
      cumtrapzAux (acc + (q.1 - p.1) * (q.2 + p.2) / 2) q rest

/-- `scipy.integrate.cumtrapz(y, x, initial=0)`: cumulative trapezoidal
integral of `y` against `x`, starting at 0. -/
def cumtrapz (y x : List ℚ) : List ℚ :=
  match List.zip x y with
  | [] => []
  | p :: rest => 0 :: cumtrapzAux 0 p rest

/-- Python builtin `max` over an array (arrays here are nonempty where it is
used; the empty case defaults 0). -/
def listMax : List ℚ → ℚ
  | [] => 0
  | a :: rest => rest.foldl max a

/-- `np.round`: round half to even (banker's rounding), as numpy documents. -/
def roundEven (q : ℚ) : ℤ :=
  if q - ⌊q⌋ < 1/2 then ⌊q⌋
  else if (1 : ℚ)/2 < q - ⌊q⌋ then ⌊q⌋ + 1
  else if ⌊q⌋ % 2 = 0 then ⌊q⌋ else ⌊q⌋ + 1

/-- Elementwise combination of three equal-length arrays (used where the
source combines three arrays that are constructed with one common length). -/
def zipW3 {α β γ δ : Type} (f : α → β → γ → δ) :
    List α → List β → List γ → List δ
  | a :: as, b :: bs, c :: cs => f a b c :: zipW3 f as bs cs
  | _, _, _ => []

/-- A 2-d numpy array (the spatial beam kernel, one velocity channel). -/
abbrev Matr := List (List ℚ)

/-- The 3-d spectral cube, indexed `cube[x][y][v]`. -/
abbrev Cube := List (List (List ℚ))

/-- Sum of a 1-d array. -/
def qsum (l : List ℚ) : ℚ := l.foldr (· + ·) 0

/-- Sum of a 2-d array. -/
def msum (m : Matr) : ℚ := qsum (m.map qsum)

/-- `cube.sum()`. -/
def cubeSum (c : Cube) : ℚ := qsum (c.map msum)

/-- Elementwise map over a cube (in-place numpy `*=` and `/=`). -/
def cubeMap (f : ℚ → ℚ) (c : Cube) : Cube :=
  c.map (fun m => m.map (fun r => r.map f))

/-- Read voxel `(i, j, k)` of a cube (0 outside, matching zero padding). -/
def cubeGet (c : Cube) (i j k : ℕ) : ℚ := ((c.getD i []).getD j []).getD k 0

/-- Materialise a cube of dimensions `(nx, ny, nv)` from a voxel function. -/
def buildCube (nx ny nv : ℕ) (f : ℕ → ℕ → ℕ → ℚ) : Cube :=
  (List.range nx).map (fun i =>
    (List.range ny).map (fun j =>
      (List.range nv).map (fun k => f i j k)))

/-- `np.zeros((nx, ny, nv))`. -/
def zeroCube (nx ny nv : ℕ) : Cube := buildCube nx ny nv (fun _ _ _ => 0)

/-- The external float math library: `np.pi` and the transcendental functions
the pipeline calls. They are opaque deterministic functions supplied by
numpy; nothing in the pipeline depends on their values beyond determinism. -/
structure NumCtx where
  pi : ℚ
  cos : ℚ → ℚ
  sin : ℚ → ℚ
  sqrt : ℚ → ℚ
  atan2 : ℚ → ℚ → ℚ

/-- `np.radians(d) = d * π / 180`. -/
def radiansQ (ctx : NumCtx) (d : ℚ) : ℚ := d * ctx.pi / 180

/-- The persistent state of a `KinMS` instance: the construction-time
parameters, the kernels built once in `__init__`, the pre-drawn random
streams (lines 138-144: drawn once from the four seeds, never regenerated),
and the mutable `nSamps` field. `rng3_exponential`/`rng3_choice` model the
`np.random.RandomState(seed[2])` draws of `kinms_sampleFromArbDist_oneSided`
(lines 409-410): deterministic functions of the requested count, since the
generator is re-seeded identically on every call. -/
structure KState where
  cellSize : ℚ
  dv : ℚ
  x_size : ℕ
  y_size : ℕ
  v_size : ℕ
  cleanOut : Bool
  huge_beam : Bool
  psf : Matr
  lsf : Option (List ℚ)
  nSamps : ℕ
  randompick_r : List ℚ
  randompick_phi : List ℚ
  randompick_vdisp : List ℚ
  rng3_exponential : ℕ → List ℚ
  rng3_choice : ℕ → List ℚ

/-- The per-invocation arguments of `model_cube` (lines 897-899), after the
scalar-or-array coercions of lines 1034-1098: a Python scalar argument is the
length-1 list. `flux_clouds = None` is `none` (the guard
`np.any(flux_clouds) != None` distinguishes exactly `None` from a supplied
array). Output-only arguments (file name, plotting, fits header fields) are
omitted: they do not influence the returned cube. -/
structure ModelConfig where
  inc : List ℚ
  posAng : List ℚ
  gasSigma : List ℚ
  diskThick : List ℚ
  flux_clouds : Option (List ℚ)
  sbProf : List ℚ
  sbRad : List ℚ
  velRad : List ℚ
  velProf : List ℚ
  inClouds : List (ℚ × ℚ × ℚ)
  vLOS_clouds : List ℚ
  massDist : List ℚ
  radial_motion_func : Option (ℚ → ℚ → ℚ → ℚ)
  intFlux : ℚ
  phaseCent : ℚ × ℚ
  vOffset : ℚ
  vPosAng : List ℚ
  vPhaseCent : ℚ × ℚ

/-- What a `model_cube` call produces: the cube, and the realized cloud
positions and line-of-sight velocities that the `returnClouds` option
returns (lines 1195-1204); the embedding always carries them. -/
structure KOutput where
  cube : Cube
  retClouds : List (ℚ × ℚ × ℚ)
  los_vel : List ℚ
deriving DecidableEq, Inhabited

/-- Pack three coordinate arrays into the rows of an `(n, 3)` array. -/
def zip3Cloud (x y z : List ℚ) : List (ℚ × ℚ × ℚ) :=
  List.zipWith (fun a bc => (a, bc)) x (List.zipWith (fun b c => (b, c)) y z)

/-- Swap major/minor when reversed, and subtract 180 from the position angle
once when it is at least 180 (`makebeam`, lines 253-256). -/
def beamNormalize3 (a b c : ℚ) : ℚ × ℚ × ℚ :=
  let p := if b > a then (b, a) else (a, b)
  (p.1, p.2, if c ≥ 180 then c - 180 else c)

/-- The beam-specification normalization performed at the top of `makebeam`
(lines 248-258) before the Gaussian kernel is constructed: a length-2 spec
gets position angle 0 appended; a scalar or length-1 spec takes the
`except` path of line 258 and acts as a circular beam with position angle 0;
longer specs use their first three entries (`st_dev = beamSize[0:2]`,
`rot = beamSize[2]`). The degenerate empty spec is mapped to zeros. -/
def makebeam_normalize (beamSize : List ℚ) : ℚ × ℚ × ℚ :=
  match beamSize with
  | [] => (0, 0, 0)
  | [s] => (s, s, 0)
  | [a, b] => beamNormalize3 a b 0
  | a :: b :: c :: _ => beamNormalize3 a b c

/-- The z-position draw of lines 397-413: with any nonzero disc thickness,
the (possibly radius-interpolated) scale height is multiplied by the
`RandomState(seed[2])` exponential and sign draws (with the length guard of
lines 399-400); a uniformly zero thickness is the thin-disc scalar
`z_pos = 0`, a broadcastable length-1 array in this embedding. -/
def sample_z_pos (ctx : NumCtx) (st : KState) (sbRad diskThick r_flat : List ℚ)
    (nSamps : ℕ) : NpRes (List ℚ) :=
  if diskThick.any (fun t => decide (t ≠ 0)) then
    if 1 < diskThick.length ∧ diskThick.length ≠ sbRad.length then
      throw (.kinmsError "Please make sure the length of diskThick is the same as that of sbRad")
    else do
      let dth ← if 1 < diskThick.length then npInterp r_flat sbRad diskThick
                else pure diskThick
      let ec ← npZip (fun a b => a * b) (st.rng3_exponential nSamps)
        (st.rng3_choice nSamps)
      npZip (fun a b => a * b) dth ec
  else
    pure [0]

/-- `kinms_sampleFromArbDist_oneSided` (lines 364-428): inverse-CDF sampling
of cloud radii from the brightness profile using the pre-drawn uniform
stream, uniform azimuth from the second stream, disc-thickness z draws (with
the `diskThick`-vs-`sbRad` length guard of lines 399-400), and recovery of
the in-plane x/y positions (lines 416-420).  The final three `npSetCol`
steps are the assignments into `np.empty((nSamps, 3))` of lines 423-426. -/
def kinms_sampleFromArbDist_oneSided (ctx : NumCtx) (st : KState)
    (sbRad sbProf : List ℚ) (nSamps : ℕ) (diskThick : List ℚ) :
    NpRes (List (ℚ × ℚ × ℚ)) := do
  let integrand ← npZip (fun p r => p * 2 * ctx.pi * |r|) sbProf sbRad
  let px0 := cumtrapz integrand (sbRad.map (fun r => |r|))
  let px := px0.map (fun v => v / listMax px0)
  let r_flat ← npInterp st.randompick_r px sbRad
  let phi := st.randompick_phi
  let z_pos ← sample_z_pos ctx st sbRad diskThick r_flat nSamps
  let r3sq ← npZip (fun r z => r ^ 2 + z ^ 2) r_flat z_pos
  let r_3d := r3sq.map ctx.sqrt
  let zratio ← npZip (fun z r => z / r) z_pos r_3d
  let sintheta := zratio.map (fun t => ctx.sqrt (1 - t ^ 2))
  let xc ← npZip (fun a b => a * b) r_3d (phi.map ctx.cos)
  let x_pos ← npZip (fun a b => a * b) xc sintheta
  let yc ← npZip (fun a b => a * b) r_3d (phi.map ctx.sin)
  let y_pos ← npZip (fun a b => a * b) yc sintheta
  let col0 ← npSetCol nSamps x_pos
  let col1 ← npSetCol nSamps y_pos
  let col2 ← npSetCol nSamps z_pos
  pure (zip3Cloud col0 col1 col2)

/-- `generate_cloudlets` (lines 593-608): validates that a brightness profile
is present and consistent, then samples cloudlets with the instance's current
`nSamps`. -/
def generate_cloudlets (ctx : NumCtx) (st : KState) (cfg : ModelConfig) :
    NpRes (List (ℚ × ℚ × ℚ)) :=
  if cfg.sbRad.length = 0 ∨ cfg.sbProf.length = 0 then
    .error (.kinmsError "Please define either inClouds or sbRad and sbProf")
  else if cfg.sbRad.length ≠ cfg.sbProf.length then
    .error (.kinmsError "Please make sure sbProf and sbRad have the same length")
  else
    kinms_sampleFromArbDist_oneSided ctx st cfg.sbRad cfg.sbProf st.nSamps
      cfg.diskThick

/-- `create_warp` (lines 625-645): a profile of length above 1 requires
`sbRad` and `velRad` to share a length (else `KinMSError`) and is then
interpolated at each cloud radius by `np.interp` (whose own length guard
raises a `ValueError` when the profile length differs from `velRad`); a
length-1 profile is broadcast flat by `np.full`. -/
def create_warp (array r_flat : List ℚ) (cellSize : ℚ) (sbRad velRad : List ℚ) :
    NpRes (List ℚ) :=
  if 1 < array.length then
    if sbRad.length ≠ velRad.length then
      .error (.kinmsError "If you want to create a warp, please make sure sbRad and velRad have the same length")
    else npInterp (r_flat.map (fun r => r * cellSize)) velRad array
  else
    match array with
    | [a] => .ok (List.replicate r_flat.length a)
    | _ => .error (.valueError "could not broadcast fill value")

/-- `inclination_projection` (lines 651-673), applied with the per-cloud
inclination array: x unchanged, y/z rotated by the inclination. All operand
arrays share the per-cloud length by construction. -/
def inclination_projection (ctx : NumCtx) (ang x1 y1 z1 : List ℚ) :
    List ℚ × List ℚ × List ℚ :=
  let y2 := zipW3 (fun a y z =>
    ctx.cos (radiansQ ctx a) * y + ctx.sin (radiansQ ctx a) * z) ang y1 z1
  let z2 := zipW3 (fun a y z =>
    -ctx.sin (radiansQ ctx a) * y + ctx.cos (radiansQ ctx a) * z) ang y1 z1
  (x1, y2, z2)

/-- `position_angle_rotation` (lines 680-702) with convention `b = 90 - ang`:
x/y rotated, z unchanged. -/
def position_angle_rotation (ctx : NumCtx) (ang x2 y2 z2 : List ℚ) :
    List ℚ × List ℚ × List ℚ :=
  let x3 := zipW3 (fun a x y =>
    ctx.cos (radiansQ ctx (90 - a)) * x + ctx.sin (radiansQ ctx (90 - a)) * y)
    ang x2 y2
  let y3 := zipW3 (fun a x y =>
    -ctx.sin (radiansQ ctx (90 - a)) * x + ctx.cos (radiansQ ctx (90 - a)) * y)
    ang x2 y2
  (x3, y3, z2)

/-- `gasGravity_velocity` (lines 550-586): squared circular-velocity additions
from the enclosed gas mass under spherical symmetry.  Non-finite float
results at radius 0 are zeroed by line 584; exact rational division by zero
yields 0 directly, matching that convention.  (The unused `max_velRad` of
line 580 is dead code and omitted.) -/
def gasGravity_velocity (ctx : NumCtx) (x_pos y_pos z_pos massDist velRad : List ℚ) :
    NpRes (List ℚ) :=
  if massDist.length ≠ 2 then
    .error (.kinmsError "Please provide massDist as a list of gasmass and distance")
  else
    let rad := zipW3 (fun x y z => ctx.sqrt (x ^ 2 + y ^ 2 + z ^ 2)) x_pos y_pos z_pos
    let n := x_pos.length
    let cumMass := (List.range (n + 1)).map
      (fun i => (i : ℚ) * (massDist.headD 0 / (n : ℚ)))
    let new_rad := 0 :: rad.insertionSort (· ≤ ·)
    .ok (velRad.map (fun vr =>
      4301 / 1000000 * npInterpPoint new_rad cumMass vr /
        (484 / 100 * vr * massDist.getD 1 0)))

/-- The dispersion factor of lines 467-470: the (possibly sliced) normal
stream is multiplied by the interpolated dispersion profile when `gasSigma`
has length above 1, else by the scalar `gasSigma` (broadcast). -/
def scale_velDisp (cfg : ModelConfig) (velDisp0 r_flatv velRad_pix : List ℚ) :
    NpRes (List ℚ) :=
  if 1 < cfg.gasSigma.length then do
    let g ← npInterp r_flatv velRad_pix cfg.gasSigma
    npZip (fun a b => a * b) velDisp0 g
  else npZip (fun a b => a * b) velDisp0 cfg.gasSigma

/-- Resolution of the kinematic position angle (lines 479-486): absent means
the morphological position angle; a single value stays a length-1 array
(later broadcast); a longer profile is interpolated at each cloud radius
(numpy raising when its length differs from `velRad`). -/
def resolve_vPosAng (cfg : ModelConfig) (r_flatv velRad_pix posAng_rad : List ℚ) :
    NpRes (List ℚ) :=
  if cfg.vPosAng.length = 0 then pure posAng_rad
  else if cfg.vPosAng.length = 1 then pure cfg.vPosAng
  else npInterp r_flatv velRad_pix cfg.vPosAng

/-- The optional radial-motion term of lines 497-498, evaluated pointwise at
`(r_flatv * cellSize, theta, inc_rad)` and added to the line-of-sight
velocities. -/
def add_radial_motion (st : KState) (cfg : ModelConfig)
    (los0 r_flatv theta inc_rad : List ℚ) : NpRes (List ℚ) :=
  match cfg.radial_motion_func with
  | some f =>
      npZip (fun a b => a + b) los0
        (zipW3 (fun r t i => f (r * st.cellSize) t i) r_flatv theta inc_rad)
  | none => pure los0

/-- `kinms_create_velField_oneSided` (lines 434-502): rotation-profile
interpolation at the (possibly kinematic-centre-offset) cloud radii, the
dispersion drawn from the pre-generated normal stream (sliced to `nSamps`
exactly when explicit clouds were given, lines 463-466), the kinematic
position-angle correction, projection to the line of sight, and the optional
radial-motion callback. `velRad_pix` is `velRad / cellSize` as passed at
line 756. -/
def kinms_create_velField_oneSided (ctx : NumCtx) (st : KState)
    (cfg : ModelConfig) (vpc : ℚ × ℚ) (velProf velRad_pix : List ℚ)
    (x_pos y_pos r_flat : List ℚ) (given : Bool) (posAng_rad inc_rad : List ℚ) :
    NpRes (List ℚ) := do
  let r_flatv :=
    if vpc ≠ (0, 0) then
      List.zipWith (fun x y => ctx.sqrt ((x - vpc.1) ^ 2 + (y - vpc.2) ^ 2))
        x_pos y_pos
    else r_flat
  let vRad ← npInterp r_flatv velRad_pix velProf
  let velDisp0 := if given then st.randompick_vdisp.take st.nSamps
                  else st.randompick_vdisp
  let velDisp ← scale_velDisp cfg velDisp0 r_flatv velRad_pix
  let vPosAng_rad ← resolve_vPosAng cfg r_flatv velRad_pix posAng_rad
  let base := List.zipWith (fun y x => ctx.atan2 (y - vpc.2) (x - vpc.1))
    y_pos x_pos
  let pdiff ← npZip (fun a b => radiansQ ctx (a - b)) posAng_rad vPosAng_rad
  let theta ← npZip (fun a b => a + b) base pdiff
  let proj ← npZip (fun t i => ctx.cos t * ctx.sin (radiansQ ctx i)) theta inc_rad
  let rterm ← npZip (fun v p => -1 * v * p) vRad proj
  let los0 ← npZip (fun a b => a + b) velDisp rterm
  add_radial_motion st cfg los0 r_flatv theta inc_rad

/-- The self-gravity augmentation of lines 732-734: when a mass/distance
pair is supplied, the rotation profile is augmented in quadrature by the
enclosed-gas-mass term. -/
def velProf_with_gravity (ctx : NumCtx) (st : KState) (cfg : ModelConfig)
    (velRad x_pos y_pos z_pos : List ℚ) : NpRes (List ℚ) :=
  if 1 < cfg.massDist.length then do
    let g ← gasGravity_velocity ctx (x_pos.map (· * st.cellSize))
      (y_pos.map (· * st.cellSize)) (z_pos.map (· * st.cellSize))
      cfg.massDist velRad
    npZip (fun v gg => ctx.sqrt (v ^ 2 + gg)) cfg.velProf g
  else pure cfg.velProf

/-- `set_cloud_velocities` (lines 708-770): explicit `vLOS_clouds` short-
circuits everything; otherwise the rotation profile (defaulting `velRad` to
`sbRad`, augmented in quadrature by gas self-gravity when `massDist` is
supplied) is combined with the position-angle/inclination warps and the
clouds are projected. -/
def set_cloud_velocities (ctx : NumCtx) (st : KState) (cfg : ModelConfig)
    (vpc : ℚ × ℚ) (x_pos y_pos z_pos r_flat : List ℚ) :
    NpRes (List ℚ × List ℚ × List ℚ × List ℚ) := do
  if cfg.vLOS_clouds.length ≠ 0 then
    pure (x_pos, y_pos, z_pos, cfg.vLOS_clouds)
  else if cfg.velProf.length = 0 then
    throw (.kinmsError "Please define either vLOS_clouds or velRad and velProf")
  else
    let velRad := if cfg.velRad.length = 0 ∧ cfg.sbRad.length ≠ 0 then cfg.sbRad
                  else cfg.velRad
    let velProf ← velProf_with_gravity ctx st cfg velRad x_pos y_pos z_pos
    if 1 < cfg.posAng.length ∧ cfg.posAng.length ≠ velRad.length then
      throw (.kinmsError "Please make sure posAng is either a single value, or has the same length as velRad")
    else do
      let posAng_rad ← create_warp cfg.posAng r_flat st.cellSize cfg.sbRad velRad
      let inc_rad ← create_warp cfg.inc r_flat st.cellSize cfg.sbRad velRad
      let los_vel ← kinms_create_velField_oneSided ctx st cfg vpc velProf
        (velRad.map (· / st.cellSize)) x_pos y_pos r_flat
        (decide (cfg.inClouds ≠ [])) posAng_rad inc_rad
      let p2 := inclination_projection ctx inc_rad x_pos y_pos z_pos
      let p3 := position_angle_rotation ctx posAng_rad p2.1 p2.2.1 p2.2.2
      pure (p3.1, p3.2.1, p3.2.2, los_vel)

/-- `find_clouds_in_cube` (lines 776-807): centre and round the cloud
coordinates (`np.round`, half to even), build the in-bounds mask over
`[0, dim)` on each axis, and keep only the surviving clouds.  The masked
coordinates are integral, so they are carried as integers (`astype(int)`
downstream truncates them unchanged). -/
def find_clouds_in_cube (st : KState) (los_vel : List ℚ) (cent : ℚ × ℚ × ℚ)
    (x2 y2 : List ℚ) : NpRes (List (ℤ × ℤ × ℤ) × List Bool) := do
  let lv := los_vel.map (fun v => roundEven (v / st.dv + cent.2.2))
  let xc := x2.map (fun x => roundEven (x + cent.1))
  let yc := y2.map (fun y => roundEven (y + cent.2.1))
  let bxs := xc.map (fun i => decide (0 ≤ i ∧ i < (st.x_size : ℤ)))
  let bys := yc.map (fun j => decide (0 ≤ j ∧ j < (st.y_size : ℤ)))
  let bvs := lv.map (fun k => decide (0 ≤ k ∧ k < (st.v_size : ℤ)))
  let s1 ← npZip (fun a b => a && b) bxs bys
  let subs ← npZip (fun a b => a && b) s1 bvs
  let cx ← npMask xc subs
  let cy ← npMask yc subs
  let cv ← npMask lv subs
  pure (cx.zip (cy.zip cv), subs)

/-- `np.bincount(l, minlength)`: raises on negative entries, otherwise counts
occurrences up to `max(minlength, max + 1)`. -/
def npBincount (l : List ℤ) (minlength : ℕ) : NpRes (List ℕ) :=
  if l.any (fun v => decide (v < 0)) then
    .error (.valueError "bincount requires non-negative entries")
  else
    .ok ((List.range
      (max minlength (l.foldr (fun v acc => max acc (v.toNat + 1)) 0))).map
      (fun (k : ℕ) => l.count ((k : ℕ) : ℤ)))

/-- The flattened linear index of a cloud, `v + dimV*y + dimV*dimY*x`
(lines 820-822). -/
def linIdx (b1 b2 : ℕ) (p : ℤ × ℤ × ℤ) : ℤ :=
  p.2.2 + (b2 : ℤ) * p.2.1 + (b2 : ℤ) * (b1 : ℤ) * p.1

/-- `histo_with_bincount` (lines 809-823): flatten each cloud to the linear
index `v + dimV*y + dimV*dimY*x`, count with `np.bincount`, and reshape to
`(b0, b1, b2)` in C order (failing when the flat count array does not have
exactly `b0*b1*b2` entries, as `reshape` does). -/
def histo_with_bincount (vals : List (ℤ × ℤ × ℤ)) (b0 b1 b2 : ℕ) :
    NpRes Cube := do
  let cd := vals.map (linIdx b1 b2)
  let flat ← npBincount cd (b0 * b1 * b2)
  if flat.length ≠ b0 * b1 * b2 then
    .error (.valueError "cannot reshape array")
  else
    .ok (buildCube b0 b1 b2
      (fun i j k => ((flat.getD (k + b2 * j + b2 * b1 * i) 0 : ℕ) : ℚ)))

/-- `np.histogramdd(clouds2do, bins, range, weights)` for integral cloud
coordinates that all lie inside the range: voxel `(i, j, k)` accumulates the
weights of the clouds equal to `(i, j, k)`. -/
def weighted_histo (clouds : List (ℤ × ℤ × ℤ)) (w : List ℚ) (b0 b1 b2 : ℕ) :
    Cube :=
  buildCube b0 b1 b2 (fun i j k =>
    qsum ((clouds.zip w).map
      (fun p => if p.1 = ((i : ℤ), (j : ℤ), (k : ℤ)) then p.2 else 0)))

/-- `add_fluxes` (lines 825-862): with surviving clouds, either the weighted
histogram (requiring explicit clouds, and the flux vector length to equal
`max(inClouds.shape)`, then boolean-masked by `subs`), or the fast unweighted
`histo_with_bincount`; with no survivors, `np.zeros` of the cube shape. -/
def add_fluxes (st : KState) (flux_clouds : Option (List ℚ)) (given : Bool)
    (inCloudsLen : ℕ) (clouds2do : List (ℤ × ℤ × ℤ)) (subs : List Bool) :
    NpRes Cube :=
  if 0 < subs.count true then
    match flux_clouds with
    | some fc =>
        if !given then
          .error (.kinmsError "flux_clouds can only be used in combination with inClouds")
        else if fc.length ≠ max inCloudsLen 3 then
          .error (.kinmsError "Please make sure flux_clouds is a 1D array matching the length of inClouds")
        else do
          let w ← npMask fc subs
          pure (weighted_histo clouds2do w st.x_size st.y_size st.v_size)
    | none => histo_with_bincount clouds2do st.x_size st.y_size st.v_size
  else .ok (zeroCube st.x_size st.y_size st.v_size)

/-- Total flux of the velocity channel `v` of a cube. -/
def channel_sum (cube : Cube) (v : ℕ) : ℚ :=
  qsum (cube.map (fun plane => qsum (plane.map (fun row => row.getD v 0))))

/-- One output pixel of `astropy.convolution.convolve(cube[:, :, v], psf)`:
direct convolution against the sum-normalised kernel with zero-filled
boundary.  `convolve_fft` computes the same sum; both source branches (lines
1146-1157) are this function in exact arithmetic. -/
def conv2dAt (cube : Cube) (psf : Matr) (v x y : ℕ) : ℚ :=
  (qsum ((List.range psf.length).map (fun (a : ℕ) =>
    qsum ((List.range (psf.headD []).length).map (fun (b : ℕ) =>
      let xi : ℤ := (x : ℤ) + ((a : ℤ) - (psf.length / 2 : ℕ))
      let yj : ℤ := (y : ℤ) + ((b : ℤ) - ((psf.headD []).length / 2 : ℕ))
      (psf.getD a []).getD b 0 *
        (if 0 ≤ xi ∧ 0 ≤ yj then cubeGet cube xi.toNat yj.toNat v else 0)))))) /
    msum psf

/-- The spatial convolution stage of `model_cube` (lines 1144-1157): skipped
for clean output; otherwise every velocity channel with positive total flux
is convolved with the beam kernel (channels with no flux are left as they
are, a pure optimisation). -/
def convolve_spatial (st : KState) (cube : Cube) : Cube :=
  if st.cleanOut then cube
  else
    buildCube st.x_size st.y_size st.v_size (fun x y v =>
      if 0 < channel_sum cube v then conv2dAt cube st.psf v x y
      else cubeGet cube x y v)

/-- One output entry of the 1-d spectral convolution of a line of sight with
the sum-normalised LSF kernel, zero-filled boundary. -/
def conv1dAt (row k : List ℚ) (v : ℕ) : ℚ :=
  (qsum ((List.range k.length).map (fun (a : ℕ) =>
    let vi : ℤ := (v : ℤ) + ((a : ℤ) - (k.length / 2 : ℕ))
    k.getD a 0 * (if 0 ≤ vi then row.getD vi.toNat 0 else 0)))) / qsum k

/-- The spectral convolution stage of `model_cube` (lines 1160-1166): when an
LSF was configured, every spatial pixel whose spectrum has positive total
flux is convolved with it. -/
def convolve_spectral (st : KState) (cube : Cube) : Cube :=
  match st.lsf with
  | none => cube
  | some k =>
      buildCube st.x_size st.y_size st.v_size (fun x y v =>
        if 0 < qsum ((cube.getD x []).getD y []) then
          conv1dAt ((cube.getD x []).getD y []) k v
        else cubeGet cube x y v)

/-- `normalise_cube` (lines 868-895): positive target flux scales the cube
(compensating the kernel sum unless the output is clean); otherwise explicit
per-cloud fluxes leave the cube unscaled; otherwise the cube is divided by
its total sum. -/
def normalise_cube (st : KState) (flux_clouds : Option (List ℚ))
    (intFlux : ℚ) (cube : Cube) (psf : Matr) : Cube :=
  if 0 < intFlux then
    if !st.cleanOut then
      cubeMap (fun q => q * (intFlux * msum psf / (cubeSum cube * st.dv))) cube
    else
      cubeMap (fun q => q * (intFlux / (cubeSum cube * st.dv))) cube
  else if flux_clouds ≠ none then cube
  else cubeMap (fun q => q / cubeSum cube) cube

/-- The post-velocity half of `model_cube` (lines 1133-1204): locate the
clouds inside the cube, bin them, convolve spatially and spectrally,
normalise, and assemble the returned cube together with the realized cloud
positions (`retClouds`, lines 1196-1199, in arcseconds) and line-of-sight
velocities. -/
def assemble (st : KState) (flux_clouds : Option (List ℚ)) (intFlux : ℚ)
    (given : Bool) (inCloudsLen : ℕ) (cent : ℚ × ℚ × ℚ)
    (x2 y2 z2 los_vel : List ℚ) : NpRes KOutput := do
  let fc ← find_clouds_in_cube st los_vel cent x2 y2
  let cube0 ← add_fluxes st flux_clouds given inCloudsLen fc.1 fc.2
  let cube3 := normalise_cube st flux_clouds intFlux
    (convolve_spectral st (convolve_spatial st cube0)) st.psf
  let r0 ← npSetCol st.nSamps (x2.map (fun q => q * st.cellSize))
  let r1 ← npSetCol st.nSamps (y2.map (fun q => q * st.cellSize))
  let r2 ← npSetCol st.nSamps (z2.map (fun q => q * st.cellSize))
  pure ⟨cube3, zip3Cloud r0 r1 r2, los_vel⟩

/-- The part of the `model_cube` body downstream of cloudlet generation:
compute the cube centre (line 1107), scale the kinematic phase centre to
pixels (line 1110), convert positions to pixels (`set_cloud_positions`,
lines 610-622), compute velocities and projected positions, and assemble. -/
def run_with_clouds (ctx : NumCtx) (st : KState) (cfg : ModelConfig)
    (inClouds : List (ℚ × ℚ × ℚ)) : NpRes KOutput := do
  let cent : ℚ × ℚ × ℚ :=
    ((st.x_size : ℚ) / 2 + cfg.phaseCent.1 / st.cellSize,
     (st.y_size : ℚ) / 2 + cfg.phaseCent.2 / st.cellSize,
     (st.v_size : ℚ) / 2 + cfg.vOffset / st.dv)
  let vpc : ℚ × ℚ := (cfg.vPhaseCent.1 / st.cellSize, cfg.vPhaseCent.2 / st.cellSize)
  let x_pos := inClouds.map (fun c => c.1 / st.cellSize)
  let y_pos := inClouds.map (fun c => c.2.1 / st.cellSize)
  let z_pos := inClouds.map (fun c => c.2.2 / st.cellSize)
  let r_flat := List.zipWith (fun x y => ctx.sqrt (x ^ 2 + y ^ 2)) x_pos y_pos
  let v4 ← set_cloud_velocities ctx st cfg vpc x_pos y_pos z_pos r_flat
  assemble st cfg.flux_clouds cfg.intFlux (decide (cfg.inClouds ≠ []))
    cfg.inClouds.length cent v4.1 v4.2.1 v4.2.2.1 v4.2.2.2

/-- The body of `model_cube` run against the already-mutated state: generate
cloudlets unless explicit ones were supplied (lines 1114-1115), then run the
rest of the pipeline on them. -/
def model_cube_run (ctx : NumCtx) (st : KState) (cfg : ModelConfig) :
    NpRes KOutput := do
  let inClouds ←
    if cfg.inClouds.length < 1 then generate_cloudlets ctx st cfg
    else pure cfg.inClouds
  run_with_clouds ctx st cfg inClouds

/-- `model_cube` (lines 897-1210) as a state transformer: the only mutation of
the instance that survives the call is the overwrite of `nSamps` by the
number of explicit clouds (lines 1028-1030), which happens before any
validation and therefore persists even when the call raises. -/
def model_cube (ctx : NumCtx) (st : KState) (cfg : ModelConfig) :
    KState × NpRes KOutput :=
  let st1 := if cfg.inClouds ≠ [] then { st with nSamps := cfg.inClouds.length }
             else st
  (st1, model_cube_run ctx st1 cfg)

/-- IEEE-754 elementwise binary operation with non-finite tracking: `none`
stands for a non-finite double (NaN or infinity), which every further
addition, subtraction or multiplication propagates. -/
def ieeeBin (f : ℚ → ℚ → ℚ) : Option ℚ → Option ℚ → Option ℚ
  | some a, some b => some (f a b)
  | _, _ => none

/-- IEEE division: a zero divisor produces a non-finite double (`0/0` is NaN,
`x/0` is an infinity), modelled as `none`. -/
def ieeeDiv : Option ℚ → Option ℚ → Option ℚ
  | some a, some b => if b = 0 then none else some (a / b)
  | _, _ => none

/-- IEEE square root: NaN for negative or non-finite input, otherwise the
library value. -/
def ieeeSqrt (ctx : NumCtx) : Option ℚ → Option ℚ
  | some a => if a < 0 then none else some (ctx.sqrt a)
  | none => none

/-- Lines 416-420 of `kinms_sampleFromArbDist_oneSided` under IEEE non-finite
tracking: `r_3d = sqrt(r_flat**2 + z_pos**2)`,
`sintheta = sqrt(1 - (z_pos / r_3d)**2)`,
`x_pos = r_3d * cos(phi) * sintheta`, `y_pos = r_3d * sin(phi) * sintheta`.
The division by `r_3d` has no guard. -/
def cloud_xy_ieee (ctx : NumCtx) (r_flat z_pos cphi sphi : Option ℚ) :
    Option ℚ × Option ℚ :=
  let r_3d := ieeeSqrt ctx (ieeeBin (fun a b => a + b)
    (ieeeBin (fun a b => a * b) r_flat r_flat)
    (ieeeBin (fun a b => a * b) z_pos z_pos))
  let sintheta := ieeeSqrt ctx (ieeeBin (fun a b => a - b) (some 1)
    (ieeeBin (fun a b => a * b) (ieeeDiv z_pos r_3d) (ieeeDiv z_pos r_3d)))
  (ieeeBin (fun a b => a * b) (ieeeBin (fun a b => a * b) r_3d cphi) sintheta,
   ieeeBin (fun a b => a * b) (ieeeBin (fun a b => a * b) r_3d sphi) sintheta)

/-- The per-cloud counting cube stated in the words of the specification:
voxel `(i, j, k)` holds the number of surviving clouds whose (integral)
coordinates equal `(i, j, k)` — the weighted histogram with unit weights. -/
def histogramdd_count (b0 b1 b2 : ℕ) (clouds : List (ℤ × ℤ × ℤ)) : Cube :=
  buildCube b0 b1 b2 (fun i j k =>
    ((clouds.count ((i : ℤ), (j : ℤ), (k : ℤ)) : ℕ) : ℚ))

/-- The rotation-profile radius grid actually used by `set_cloud_velocities`:
`velRad`, defaulted to `sbRad` when `velRad` is empty (lines 729-730). -/
def effVelRad (cfg : ModelConfig) : List ℚ :=
  if cfg.velRad.length = 0 ∧ cfg.sbRad.length ≠ 0 then cfg.sbRad else cfg.velRad

/-- A warp parameter of length above 1 whose length differs from the
rotation-profile radius grid. -/
def warpMismatch (cfg : ModelConfig) : Prop :=
  (1 < cfg.posAng.length ∧ cfg.posAng.length ≠ (effVelRad cfg).length) ∨
  (1 < cfg.inc.length ∧ cfg.inc.length ≠ (effVelRad cfg).length) ∨
  (1 < cfg.vPosAng.length ∧ cfg.vPosAng.length ≠ (effVelRad cfg).length)

/-- Whether a pipeline result is the library's own `KinMSError`. -/
def isKinmsErr {α : Type} : NpRes α → Bool
  | .error (.kinmsError _) => true
  | _ => false

/-- A concrete instantiation of the float math library used to evaluate the
pipeline on sample inputs. -/
def ctxW : NumCtx :=
  { pi := 3, cos := fun _ => 1, sin := fun _ => 0, sqrt := fun _ => 0,
    atan2 := fun _ _ => 0 }

/-- A small concrete instance state (2 x 2 x 2 cube, unit cells, clean
output, one pre-drawn sample per stream). -/
def stW1 : KState :=
  { cellSize := 1, dv := 1, x_size := 2, y_size := 2, v_size := 2,
    cleanOut := true, huge_beam := false, psf := [[1]], lsf := none,
    nSamps := 1, randompick_r := [0], randompick_phi := [0],
    randompick_vdisp := [0],
    rng3_exponential := fun n => List.replicate n 1,
    rng3_choice := fun n => List.replicate n 1 }

/-- A concrete instance state with three pre-drawn samples per stream. -/
def stW3 : KState :=
  { cellSize := 1, dv := 1, x_size := 2, y_size := 2, v_size := 2,
    cleanOut := true, huge_beam := false, psf := [[1]], lsf := none,
    nSamps := 3, randompick_r := [0, 1/4, 1/2], randompick_phi := [0, 0, 0],
    randompick_vdisp := [0, 0, 0],
    rng3_exponential := fun n => List.replicate n 1,
    rng3_choice := fun n => List.replicate n 1 }

/-- A model configuration whose fields are all empty or scalar defaults;
sample configurations below override the relevant fields. -/
def cfg0 : ModelConfig :=
  { inc := [45], posAng := [0], gasSigma := [0], diskThick := [0],
    flux_clouds := none, sbProf := [], sbRad := [], velRad := [],
    velProf := [], inClouds := [], vLOS_clouds := [], massDist := [],
    radial_motion_func := none, intFlux := 0, phaseCent := (0, 0),
    vOffset := 0, vPosAng := [], vPhaseCent := (0, 0) }

/-- Sample configuration with one explicit cloud and an explicit
line-of-sight velocity. -/
def cfgClouds1 : ModelConfig :=
  { cfg0 with inClouds := [(0, 0, 0)], vLOS_clouds := [0] }

/-- Sample configuration supplying an inclination warp of length 2 against a
rotation-profile radius grid of length 3 (with matching `sbRad`). -/
def cfgIncWarp : ModelConfig :=
  { cfg0 with
    inClouds := [(1, 0, 0)], sbRad := [0, 1, 2],
    velRad := [0, 1, 2], velProf := [1, 1, 1], inc := [60, 70] }

/-- Sample configuration with two explicit clouds (used to overwrite
`nSamps` of `stW3`). -/
def cfgClouds2 : ModelConfig :=
  { cfg0 with inClouds := [(0, 0, 0), (1, 1, 0)], vLOS_clouds := [0, 0] }

/-- Sample profile-based configuration (no explicit clouds). -/
def cfgProfile : ModelConfig :=
  { cfg0 with sbRad := [0, 1], sbProf := [1, 1], velProf := [1, 1] }

/-- The output of the sample round-trip call (`cfgClouds1` on `stW1`). -/
def outW1 : KOutput := ((model_cube ctxW stW1 cfgClouds1).2).toOption.getD default

/-- The cloudlets sampled from `cfgProfile`-style inputs with a uniformly
zero disc thickness on `stW3`. -/
def cloudsThin : List (ℚ × ℚ × ℚ) :=
  (kinms_sampleFromArbDist_oneSided ctxW stW3 [0, 1] [1, 1] 3 [0]).toOption.getD []

end KinMSpy

namespace KinMSpy

/-! ## Helper lemmas -/

theorem ok_bind {α β : Type} (a : α) (f : α → NpRes β) :
    (Except.ok a >>= f) = f a := rfl

theorem error_bind {α β : Type} (e : PyErr) (f : α → NpRes β) :
    ((Except.error e : NpRes α) >>= f) = Except.error e := rfl

theorem pure_eq_ok {α : Type} (a : α) : (pure a : NpRes α) = Except.ok a := rfl

theorem throw_eq_error {α : Type} (e : PyErr) :
    (throw e : NpRes α) = Except.error e := rfl

theorem qsum_nil : qsum [] = 0 := rfl

theorem qsum_cons (a : ℚ) (l : List ℚ) : qsum (a :: l) = a + qsum l := rfl

theorem msum_nil : msum [] = 0 := rfl

theorem msum_cons (r : List ℚ) (m : Matr) : msum (r :: m) = qsum r + msum m := rfl

theorem cubeSum_nil : cubeSum [] = 0 := rfl

theorem cubeSum_cons (m : Matr) (c : Cube) :
    cubeSum (m :: c) = msum m + cubeSum c := rfl

theorem qsum_map_mul (k : ℚ) (l : List ℚ) :
    qsum (l.map (fun q => q * k)) = qsum l * k := by
  induction l with
  | nil => simp [qsum_nil]
  | cons a t ih => simp [qsum_cons, ih]; ring

theorem msum_map_mul (k : ℚ) (m : Matr) :
    msum (m.map (fun r => r.map (fun q => q * k))) = msum m * k := by
  induction m with
  | nil => simp [msum_nil]
  | cons r t ih => simp [msum_cons, ih, qsum_map_mul]; ring

theorem cubeSum_cubeMap_mul (k : ℚ) (c : Cube) :
    cubeSum (cubeMap (fun q => q * k) c) = cubeSum c * k := by
  induction c with
  | nil => simp [cubeMap, cubeSum_nil]
  | cons m t ih =>
      simp only [cubeMap, List.map_cons, cubeSum_cons] at *
      rw [ih, msum_map_mul]; ring

theorem qsum_map_div (k : ℚ) (l : List ℚ) :
    qsum (l.map (fun q => q / k)) = qsum l / k := by
  induction l with
  | nil => simp [qsum_nil]
  | cons a t ih => simp [qsum_cons, ih]; ring

theorem msum_map_div (k : ℚ) (m : Matr) :
    msum (m.map (fun r => r.map (fun q => q / k))) = msum m / k := by
  induction m with
  | nil => simp [msum_nil]
  | cons r t ih => simp [msum_cons, ih, qsum_map_div]; ring

theorem cubeSum_cubeMap_div (k : ℚ) (c : Cube) :
    cubeSum (cubeMap (fun q => q / k) c) = cubeSum c / k := by
  induction c with
  | nil => simp [cubeMap, cubeSum_nil]
  | cons m t ih =>
      simp only [cubeMap, List.map_cons, cubeSum_cons] at *
      rw [ih, msum_map_div]; ring

theorem bind_eq_ok {α β : Type} {e : NpRes α} {f : α → NpRes β} {b : β}
    (h : (e >>= f) = .ok b) : ∃ a, e = .ok a ∧ f a = .ok b := by
  cases e with
  | ok a => exact ⟨a, rfl, h⟩
  | error err => simp [error_bind] at h

/-! ## C1: determinism of `model_cube` -/

/-- Claim C1: `model_cube` is a pure function of the configuration and the
instance state (with its pre-drawn random streams): it is a Lean function,
so one invocation is determined by its arguments; moreover repeating an
invocation on the post-state of the first (the only surviving mutation being
the `nSamps` overwrite) yields a bit-identical output cube and state, so two
invocations with identical arguments on the same instance agree. -/
theorem C1_model_cube_deterministic (ctx : NumCtx) (st : KState)
    (cfg : ModelConfig) :
    model_cube ctx (model_cube ctx st cfg).1 cfg = model_cube ctx st cfg := by
  unfold model_cube
  by_cases h : cfg.inClouds = []
  · simp [h]
  · simp [h]

/-! ## C2: the flux-normalization priority -/

/-- Claim C2: `normalise_cube` applies exactly this priority: a positive
target flux with a convolved cube rescales so that
`sum(cube) * dv = intFlux * sum(psf)`; with clean output it rescales so that
`sum(cube) * dv = intFlux`; otherwise explicit per-cloud flux weights leave
the cube unscaled; otherwise the cube is divided by its total sum so that it
sums to exactly 1. (The rescaling statements assume the cube and channel
width are nonzero, as a scale factor with a zero denominator is
meaningless.) -/
theorem C2_normalise_priority (st : KState) (flux : Option (List ℚ))
    (intFlux : ℚ) (cube : Cube) (psf : Matr)
    (hS : cubeSum cube ≠ 0) (hdv : st.dv ≠ 0) :
    (0 < intFlux → st.cleanOut = false →
      cubeSum (normalise_cube st flux intFlux cube psf) * st.dv =
        intFlux * msum psf) ∧
    (0 < intFlux → st.cleanOut = true →
      cubeSum (normalise_cube st flux intFlux cube psf) * st.dv = intFlux) ∧
    (¬ 0 < intFlux → flux ≠ none →
      normalise_cube st flux intFlux cube psf = cube) ∧
    (¬ 0 < intFlux → flux = none →
      cubeSum (normalise_cube st flux intFlux cube psf) = 1) := by
  refine ⟨?_, ?_, ?_, ?_⟩
  · intro hf hc
    unfold normalise_cube
    rw [if_pos hf, hc]
    simp only [Bool.not_false, if_pos]
    rw [cubeSum_cubeMap_mul]
    field_simp
    ring
  · intro hf hc
    unfold normalise_cube
    rw [if_pos hf, hc]
    simp only [Bool.not_true, Bool.false_eq_true, if_false]
    rw [cubeSum_cubeMap_mul]
    field_simp
    ring
  · intro hf hfc
    unfold normalise_cube
    rw [if_neg hf, if_pos hfc]
  · intro hf hfc
    unfold normalise_cube
    rw [if_neg hf]
    simp only [hfc, ne_eq, not_true_eq_false, if_false]
    rw [cubeSum_cubeMap_div]
    exact div_self hS

/-- Witness for C2 at a concrete cube: the no-target, no-explicit-flux branch
divides a one-voxel cube of value 2 down to total 1. -/
theorem C2_normalise_priority_witness :
    cubeSum [[[(2 : ℚ)]]] ≠ 0 ∧ stW1.dv ≠ 0 ∧
    cubeSum (normalise_cube stW1 none 0 [[[(2 : ℚ)]]] [[1]]) = 1 := by
  have hS : cubeSum [[[(2 : ℚ)]]] ≠ 0 := by with_unfolding_all decide
  have hdv : stW1.dv ≠ 0 := by with_unfolding_all decide
  exact ⟨hS, hdv,
    (C2_normalise_priority stW1 none 0 [[[(2 : ℚ)]]] [[1]] hS hdv).2.2.2
      (by with_unfolding_all decide) rfl⟩

/-! ## C8: beam-specification normalization in `makebeam` -/

/-- A normalized beam triple in the sense of the specification: the major
axis is at least the minor axis and the position angle lies in `[0, 180)`. -/
def beamSpecOK (t : ℚ × ℚ × ℚ) : Prop :=
  t.2.1 ≤ t.1 ∧ 0 ≤ t.2.2 ∧ t.2.2 < 180

/-- Counterexample to claim C8 as stated: for the 3-value beam specification
`[3, 2, 360]` the position angle is reduced by 180 only once, leaving 180,
which is not inside `[0, 180)`: the fold into `[0, 180)` fails. -/
theorem C8_pa_counterexample :
    (makebeam_normalize [3, 2, 360]).2.2 = 180 ∧
    ¬ beamSpecOK (makebeam_normalize [3, 2, 360]) := by
  constructor
  · with_unfolding_all decide
  · intro hok
    have h180 : (makebeam_normalize [3, 2, 360]).2.2 = 180 := by
      with_unfolding_all decide
    have hlt := hok.2.2
    rw [h180] at hlt
    norm_num at hlt

/-- Claim C8 amended: `makebeam` normalizes the beam specification so the
major axis is at least the minor axis (swapping when given reversed), and
subtracts 180 from the position angle exactly once when it is at least 180 —
which folds it into `[0, 180)` exactly for input position angles in
`[0, 360)` (not in general); 1- and 2-value specifications get position
angle 0. -/
theorem C8_beam_normalized (a b c s : ℚ) (h1 : 0 ≤ c) (h2 : c < 360) :
    beamSpecOK (makebeam_normalize [a, b, c]) ∧
    (makebeam_normalize [a, b, c]).1 = max a b ∧
    (makebeam_normalize [a, b, c]).2.1 = min a b ∧
    (makebeam_normalize [a, b, c]).2.2 = (if c ≥ 180 then c - 180 else c) ∧
    beamSpecOK (makebeam_normalize [a, b]) ∧
    (makebeam_normalize [a, b]).2.2 = 0 ∧
    makebeam_normalize [s] = (s, s, 0) := by
  have h3 : makebeam_normalize [a, b, c] =
      ((if b > a then b else a), (if b > a then a else b),
        (if c ≥ 180 then c - 180 else c)) := by
    show beamNormalize3 a b c = _
    unfold beamNormalize3
    by_cases hab : b > a <;> simp [hab]
  have h4 : makebeam_normalize [a, b] =
      ((if b > a then b else a), (if b > a then a else b), (0 : ℚ)) := by
    show beamNormalize3 a b 0 = _
    unfold beamNormalize3
    by_cases hab : b > a <;> norm_num [hab]
  rw [h3, h4]
  refine ⟨?_, ?_, ?_, rfl, ?_, rfl, rfl⟩
  · unfold beamSpecOK
    by_cases hab : b > a <;> by_cases hc : c ≥ 180 <;>
        simp only [hab, hc, if_true, if_false, ite_true, ite_false] <;>
      refine ⟨?_, ?_, ?_⟩ <;> linarith
  · by_cases hab : b > a
    · simp only [if_pos hab]
      exact (max_eq_right (le_of_lt hab)).symm
    · simp only [if_neg hab]
      exact (max_eq_left (not_lt.mp hab)).symm
  · by_cases hab : b > a
    · simp only [if_pos hab]
      exact (min_eq_left (le_of_lt hab)).symm
    · simp only [if_neg hab]
      exact (min_eq_right (not_lt.mp hab)).symm
  · unfold beamSpecOK
    by_cases hab : b > a <;>
        simp only [hab, if_true, if_false, ite_true, ite_false] <;>
      refine ⟨?_, ?_, ?_⟩ <;> linarith

/-- Witness for the amended C8 at the reversed 3-value specification
`[3, 5, 200]`. -/
theorem C8_beam_normalized_witness :
    (0 : ℚ) ≤ 200 ∧ (200 : ℚ) < 360 ∧
    beamSpecOK (makebeam_normalize [3, 5, 200]) ∧
    makebeam_normalize [(4 : ℚ)] = (4, 4, 0) := by
  have h1 : (0 : ℚ) ≤ 200 := by norm_num
  have h2 : (200 : ℚ) < 360 := by norm_num
  have h := C8_beam_normalized 3 5 200 4 h1 h2
  exact ⟨h1, h2, h.1, h.2.2.2.2.2.2⟩

/-! ## C10: unguarded division and NaN positions -/

/-- Claim C10: the cloud-position computation of lines 416-420 divides
`z_pos` by the 3-d radius with no guard, so with a sampled in-plane radius of
exactly 0 — produced, e.g., by a uniform draw of 0 against a brightness
radius grid beginning at 0, since `np.interp(0, px, sbRad) = sbRad[0]` with
`px[0] = 0` from the cumulative integral — together with the thin-disc
`z = 0`, the division is `0/0` and the computed x and y positions are NaN
(`none` in the IEEE non-finite model) rather than finite values or an
error. -/
theorem C10_unguarded_division (ctx : NumCtx) (pxs rads : List ℚ)
    (cphi sphi : Option ℚ) (hsq : ctx.sqrt 0 = 0) :
    npInterpPoint (0 :: pxs) (0 :: rads) 0 = 0 ∧
    cloud_xy_ieee ctx (some 0) (some 0) cphi sphi = (none, none) := by
  constructor
  · simp [npInterpPoint]
  · cases cphi <;> cases sphi <;>
      simp [cloud_xy_ieee, ieeeBin, ieeeDiv, ieeeSqrt, hsq]

/-- Witness for C10 at a concrete context and profile. -/
theorem C10_unguarded_division_witness :
    ctxW.sqrt 0 = 0 ∧
    cloud_xy_ieee ctxW (some 0) (some 0) (some 1) (some 0) = (none, none) := by
  have hsq : ctxW.sqrt 0 = 0 := rfl
  exact ⟨hsq, (C10_unguarded_division ctxW [1] [1] (some 1) (some 0) hsq).2⟩

/-! ## C7: the thin-disc property -/

theorem npSetCol_ok_mem {α : Type} {n : ℕ} {v w : List α}
    (h : npSetCol n v = .ok w) : ∀ x ∈ w, x ∈ v := by
  unfold npSetCol at h
  split at h
  · simp only [Except.ok.injEq] at h
    subst h
    intro x hx
    exact hx
  · split at h
    · simp only [Except.ok.injEq] at h
      subst h
      intro x hx
      simp only [List.eq_of_mem_replicate hx, List.mem_singleton]
    · simp at h

theorem zip3Cloud_eq_zip (a b c : List ℚ) :
    zip3Cloud a b c = a.zip (b.zip c) := rfl

theorem zip3Cloud_mem_third {a b c : List ℚ} {x y z : ℚ}
    (hp : (x, y, z) ∈ zip3Cloud a b c) : z ∈ c := by
  rw [zip3Cloud_eq_zip] at hp
  exact (List.of_mem_zip (List.of_mem_zip hp).2).2

/-- Claim C7: for every brightness profile and cloud count, if the
disc-thickness parameter is uniformly zero then every cloudlet returned by
the sampler has z-position exactly 0 (lines 411-413 set `z_pos = 0`, so the
third column of the returned cloud array is exactly zero). -/
theorem C7_thin_disc (ctx : NumCtx) (st : KState) (sbRad sbProf : List ℚ)
    (nS : ℕ) (diskThick : List ℚ) (clouds : List (ℚ × ℚ × ℚ))
    (hthin : ∀ t ∈ diskThick, t = 0)
    (h : kinms_sampleFromArbDist_oneSided ctx st sbRad sbProf nS diskThick =
      .ok clouds) :
    ∀ p ∈ clouds, p.2.2 = 0 := by
  have hcond : diskThick.any (fun t => decide (t ≠ 0)) = false := by
    rw [List.any_eq_false]
    intro t ht
    simpa using hthin t ht
  rw [kinms_sampleFromArbDist_oneSided] at h
  obtain ⟨integrand, h1, h⟩ := bind_eq_ok h
  obtain ⟨r_flat, h2, h⟩ := bind_eq_ok h
  obtain ⟨z_pos, h3, h⟩ := bind_eq_ok h
  unfold sample_z_pos at h3
  rw [hcond] at h3
  simp only [Bool.false_eq_true, if_false, pure_eq_ok, Except.ok.injEq] at h3
  subst h3
  obtain ⟨r3sq, h4, h⟩ := bind_eq_ok h
  obtain ⟨zratio, h5, h⟩ := bind_eq_ok h
  obtain ⟨xc, h6, h⟩ := bind_eq_ok h
  obtain ⟨x_pos, h7, h⟩ := bind_eq_ok h
  obtain ⟨yc, h8, h⟩ := bind_eq_ok h
  obtain ⟨y_pos, h9, h⟩ := bind_eq_ok h
  obtain ⟨col0, h10, h⟩ := bind_eq_ok h
  obtain ⟨col1, h11, h⟩ := bind_eq_ok h
  obtain ⟨col2, h12, h⟩ := bind_eq_ok h
  rw [pure_eq_ok] at h
  simp only [Except.ok.injEq] at h
  subst h
  intro p hp
  obtain ⟨px, py, pz⟩ := p
  have hz := zip3Cloud_mem_third hp
  have hzin := npSetCol_ok_mem h12 _ hz
  simpa using hzin

/-- Witness for C7: the sampler run on a concrete flat profile with zero
thickness returns clouds whose z-components are all zero. -/
theorem C7_thin_disc_witness :
    (∀ t ∈ [(0 : ℚ)], t = 0) ∧ (∀ p ∈ cloudsThin, p.2.2 = 0) := by
  refine ⟨by simp, ?_⟩
  exact C7_thin_disc ctxW stW3 [0, 1] [1, 1] 3 [0] cloudsThin (by simp)
    (by with_unfolding_all rfl)

/-! ## C4: the flattened bincount refines per-voxel counting -/

/-- In-bounds predicate for a cloud in a `(b0, b1, b2)` grid. -/
def inBounds3 (b0 b1 b2 : ℕ) (p : ℤ × ℤ × ℤ) : Prop :=
  0 ≤ p.1 ∧ p.1 < (b0 : ℤ) ∧ 0 ≤ p.2.1 ∧ p.2.1 < (b1 : ℤ) ∧
    0 ≤ p.2.2 ∧ p.2.2 < (b2 : ℤ)

theorem linIdx_nonneg {b0 b1 b2 : ℕ} {p : ℤ × ℤ × ℤ}
    (h : inBounds3 b0 b1 b2 p) : 0 ≤ linIdx b1 b2 p := by
  obtain ⟨h1, _, h3, _, h5, _⟩ := h
  unfold linIdx
  have : (0 : ℤ) ≤ (b2 : ℤ) * p.2.1 := mul_nonneg (by positivity) h3
  have : (0 : ℤ) ≤ (b2 : ℤ) * (b1 : ℤ) * p.1 :=
    mul_nonneg (mul_nonneg (by positivity) (by positivity)) h1
  linarith

theorem linIdx_lt {b0 b1 b2 : ℕ} {p : ℤ × ℤ × ℤ}
    (h : inBounds3 b0 b1 b2 p) : linIdx b1 b2 p < ((b0 * b1 * b2 : ℕ) : ℤ) := by
  obtain ⟨h1, h2, h3, h4, h5, h6⟩ := h
  unfold linIdx
  have e2 : (b2 : ℤ) * p.2.1 ≤ (b2 : ℤ) * ((b1 : ℤ) - 1) :=
    mul_le_mul_of_nonneg_left (by omega) (by positivity)
  have e3 : (b2 : ℤ) * (b1 : ℤ) * p.1 ≤ (b2 : ℤ) * (b1 : ℤ) * ((b0 : ℤ) - 1) :=
    mul_le_mul_of_nonneg_left (by omega) (by positivity)
  push_cast
  nlinarith

theorem linIdx_inj {b0 b1 b2 : ℕ} {p q : ℤ × ℤ × ℤ}
    (hp : inBounds3 b0 b1 b2 p) (hq : inBounds3 b0 b1 b2 q)
    (h : linIdx b1 b2 p = linIdx b1 b2 q) : p = q := by
  obtain ⟨px, py, pv⟩ := p
  obtain ⟨qx, qy, qv⟩ := q
  obtain ⟨hp1, hp2, hp3, hp4, hp5, hp6⟩ := hp
  obtain ⟨hq1, hq2, hq3, hq4, hq5, hq6⟩ := hq
  simp only [inBounds3] at *
  unfold linIdx at h
  simp only at h hp1 hp2 hp3 hp4 hp5 hp6 hq1 hq2 hq3 hq4 hq5 hq6
  have hb2 : (0 : ℤ) < (b2 : ℤ) := lt_of_le_of_lt hp5 hp6
  have hb1 : (0 : ℤ) < (b1 : ℤ) := lt_of_le_of_lt hp3 hp4
  have h2 : pv + (b2 : ℤ) * (py + (b1 : ℤ) * px) =
      qv + (b2 : ℤ) * (qy + (b1 : ℤ) * qx) := by linarith [h]
  have hv : pv = qv := by
    have hm : (pv + (b2 : ℤ) * (py + (b1 : ℤ) * px)) % (b2 : ℤ) =
        (qv + (b2 : ℤ) * (qy + (b1 : ℤ) * qx)) % (b2 : ℤ) := by rw [h2]
    rwa [Int.add_mul_emod_self_left, Int.add_mul_emod_self_left,
      Int.emod_eq_of_lt hp5 hp6, Int.emod_eq_of_lt hq5 hq6] at hm
  have h3 : py + (b1 : ℤ) * px = qy + (b1 : ℤ) * qx := by
    have := h2
    rw [hv] at this
    have hc : (b2 : ℤ) * (py + (b1 : ℤ) * px) = (b2 : ℤ) * (qy + (b1 : ℤ) * qx) := by
      linarith
    exact mul_left_cancel₀ (ne_of_gt hb2) hc
  have hy : py = qy := by
    have hm : (py + (b1 : ℤ) * px) % (b1 : ℤ) = (qy + (b1 : ℤ) * qx) % (b1 : ℤ) := by
      rw [h3]
    rwa [Int.add_mul_emod_self_left, Int.add_mul_emod_self_left,
      Int.emod_eq_of_lt hp3 hp4, Int.emod_eq_of_lt hq3 hq4] at hm
  have hx : px = qx := by
    have := h3
    rw [hy] at this
    have hc : (b1 : ℤ) * px = (b1 : ℤ) * qx := by linarith
    exact mul_left_cancel₀ (ne_of_gt hb1) hc
  simp [hx, hy, hv]

theorem linIdx_mk (b1 b2 : ℕ) (x y v : ℤ) :
    linIdx b1 b2 (x, y, v) = v + (b2 : ℤ) * y + (b2 : ℤ) * (b1 : ℤ) * x := rfl

theorem count_map_eq_countP {α β : Type} [DecidableEq α] [DecidableEq β]
    (f : α → β) (l : List α) (b : β) :
    (l.map f).count b = l.countP (fun a => decide (f a = b)) := by
  induction l with
  | nil => rfl
  | cons a t ih =>
      by_cases hab : f a = b <;>
        simp [List.count_cons, List.countP_cons, ih, hab]

theorem countP_eq_count3 (l : List (ℤ × ℤ × ℤ)) (t : ℤ × ℤ × ℤ) :
    l.countP (fun a => decide (a = t)) = l.count t := by
  induction l with
  | nil => rfl
  | cons a s ih =>
      by_cases hab : a = t <;> simp [List.count_cons, List.countP_cons, ih, hab]

theorem foldr_toNat_le {l : List ℤ} {K : ℕ} (h : ∀ v ∈ l, v.toNat + 1 ≤ K) :
    l.foldr (fun v acc => max acc (v.toNat + 1)) 0 ≤ K := by
  induction l with
  | nil => exact Nat.zero_le K
  | cons a t ih =>
      simp only [List.foldr_cons]
      exact max_le (ih (fun v hv => h v (List.mem_cons_of_mem a hv)))
        (h a (List.mem_cons_self a t))

theorem getD_range_map {L : ℕ} (f : ℕ → ℕ) {i : ℕ} (h : i < L) :
    (((List.range L).map f).getD i 0) = f i := by
  have hlen : i < ((List.range L).map f).length := by simpa using h
  rw [List.getD_eq_getElem?_getD, List.getElem?_eq_getElem hlen]
  simp

theorem buildCube_congr {nx ny nv : ℕ} {f g : ℕ → ℕ → ℕ → ℚ}
    (h : ∀ i < nx, ∀ j < ny, ∀ k < nv, f i j k = g i j k) :
    buildCube nx ny nv f = buildCube nx ny nv g := by
  unfold buildCube
  apply List.map_congr_left
  intro i hi
  apply List.map_congr_left
  intro j hj
  apply List.map_congr_left
  intro k hk
  exact h i (List.mem_range.mp hi) j (List.mem_range.mp hj) k
    (List.mem_range.mp hk)

/-- Claim C4: for surviving in-bounds clouds with no explicit flux weights,
the flattened-linear-index bincount binning (`histo_with_bincount`) produces
exactly the per-voxel counting cube (the weighted histogram with unit
weights), `histogramdd_count`. -/
theorem C4_bincount_refines_counting (clouds : List (ℤ × ℤ × ℤ))
    (b0 b1 b2 : ℕ) (h : ∀ p ∈ clouds, inBounds3 b0 b1 b2 p) :
    histo_with_bincount clouds b0 b1 b2 =
      .ok (histogramdd_count b0 b1 b2 clouds) := by
  have hneg : (clouds.map (linIdx b1 b2)).any (fun v => decide (v < 0)) = false := by
    rw [List.any_eq_false]
    intro v hv
    obtain ⟨p, hp, rfl⟩ := List.mem_map.mp hv
    simpa using linIdx_nonneg (h p hp)
  have hfold : ((clouds.map (linIdx b1 b2)).foldr
      (fun v acc => max acc (v.toNat + 1)) 0) ≤ b0 * b1 * b2 := by
    apply foldr_toNat_le
    intro v hv
    obtain ⟨p, hp, rfl⟩ := List.mem_map.mp hv
    have hlt := linIdx_lt (h p hp)
    have hnn := linIdx_nonneg (h p hp)
    omega
  have hmax : max (b0 * b1 * b2) ((clouds.map (linIdx b1 b2)).foldr
      (fun v acc => max acc (v.toNat + 1)) 0) = b0 * b1 * b2 :=
    Nat.max_eq_left hfold
  simp only [histo_with_bincount, npBincount]
  rw [hneg]
  simp only [Bool.false_eq_true, if_false, ok_bind, hmax, List.length_map,
    List.length_range, ne_eq]
  rw [if_neg (by simp)]
  unfold histogramdd_count
  congr 1
  apply buildCube_congr
  intro i hi j hj k hk
  have hbi : (i : ℤ) < (b0 : ℤ) := by exact_mod_cast hi
  have hbj : (j : ℤ) < (b1 : ℤ) := by exact_mod_cast hj
  have hbk : (k : ℤ) < (b2 : ℤ) := by exact_mod_cast hk
  have htb : inBounds3 b0 b1 b2 ((i : ℤ), (j : ℤ), (k : ℤ)) :=
    ⟨Int.natCast_nonneg i, hbi, Int.natCast_nonneg j, hbj,
      Int.natCast_nonneg k, hbk⟩
  have hidx : k + b2 * j + b2 * b1 * i < b0 * b1 * b2 := by
    have hlin := linIdx_lt htb
    rw [linIdx_mk] at hlin
    exact_mod_cast hlin
  rw [getD_range_map _ hidx]
  have hcast : ((k + b2 * j + b2 * b1 * i : ℕ) : ℤ) =
      linIdx b1 b2 ((i : ℤ), (j : ℤ), (k : ℤ)) := by
    rw [linIdx_mk]
    push_cast
    ring
  rw [hcast, count_map_eq_countP]
  have hcong : clouds.countP
      (fun a => decide (linIdx b1 b2 a = linIdx b1 b2 ((i : ℤ), (j : ℤ), (k : ℤ)))) =
      clouds.countP (fun a => decide (a = ((i : ℤ), (j : ℤ), (k : ℤ)))) := by
    apply List.countP_congr
    intro a ha
    by_cases heq : a = ((i : ℤ), (j : ℤ), (k : ℤ))
    · simp [heq]
    · have : ¬ linIdx b1 b2 a = linIdx b1 b2 ((i : ℤ), (j : ℤ), (k : ℤ)) :=
        fun hl => heq (linIdx_inj (h a ha) htb hl)
      simp [heq, this]
  rw [hcong, countP_eq_count3]

/-- Witness for C4 at a concrete cloud list inside a 2 x 2 x 2 grid. -/
theorem C4_bincount_refines_counting_witness :
    (∀ p ∈ [((0 : ℤ), (0 : ℤ), (0 : ℤ)), (1, 1, 1), (0, 0, 0)],
      inBounds3 2 2 2 p) ∧
    histo_with_bincount [((0 : ℤ), (0 : ℤ), (0 : ℤ)), (1, 1, 1), (0, 0, 0)] 2 2 2 =
      .ok (histogramdd_count 2 2 2
        [((0 : ℤ), (0 : ℤ), (0 : ℤ)), (1, 1, 1), (0, 0, 0)]) := by
  have hb : ∀ p ∈ [((0 : ℤ), (0 : ℤ), (0 : ℤ)), (1, 1, 1), (0, 0, 0)],
      inBounds3 2 2 2 p := by
    intro p hp
    simp only [List.mem_cons, List.mem_singleton] at hp
    rcases hp with rfl | rfl | rfl | hp
    · exact ⟨by norm_num, by norm_num, by norm_num, by norm_num, by norm_num,
        by norm_num⟩
    · exact ⟨by norm_num, by norm_num, by norm_num, by norm_num, by norm_num,
        by norm_num⟩
    · exact ⟨by norm_num, by norm_num, by norm_num, by norm_num, by norm_num,
        by norm_num⟩
    · cases hp
  exact ⟨hb, C4_bincount_refines_counting _ 2 2 2 hb⟩

/-! ## C5: out-of-bounds clouds silently excluded; empty case gives zeros -/

theorem npZip_eq_ok {α β γ : Type} (f : α → β → γ) (a : List α) (b : List β)
    (h : a.length = b.length) : npZip f a b = .ok (List.zipWith f a b) := by
  unfold npZip
  rw [if_pos h]

theorem npMask_eq_ok {α : Type} (a : List α) (m : List Bool)
    (h : a.length = m.length) :
    npMask a m =
      .ok ((a.zip m).filterMap (fun p => if p.2 then some p.1 else none)) := by
  unfold npMask
  rw [if_pos h]

theorem mem_mask_getElem {α : Type} {a : List α} {m : List Bool} {q : α}
    (h : q ∈ (a.zip m).filterMap (fun pr => if pr.2 then some pr.1 else none)) :
    ∃ i, ∃ (h1 : i < a.length) (h2 : i < m.length),
      a[i] = q ∧ m[i] = true := by
  rw [List.mem_filterMap] at h
  obtain ⟨pr, hpr, heq⟩ := h
  by_cases hb : pr.2 = true
  · simp only [hb, if_true, Option.some.injEq] at heq
    obtain ⟨i, hi, hget⟩ := List.getElem_of_mem hpr
    have hboth : i < a.length ∧ i < m.length := by
      simpa [List.length_zip, lt_min_iff] using hi
    refine ⟨i, hboth.1, hboth.2, ?_, ?_⟩
    · rw [List.getElem_zip] at hget
      rw [← heq, ← hget]
    · rw [List.getElem_zip] at hget
      rw [← hb, ← hget]
  · simp only [Bool.not_eq_true] at hb
    simp [hb] at heq

theorem subs_extract {xc yc lv : List ℤ} {P Q R : ℤ → Bool} {i : ℕ}
    (hix : i < xc.length) (hiy : i < yc.length) (hiv : i < lv.length)
    (hi : i < (List.zipWith (fun a b => a && b)
      (List.zipWith (fun a b => a && b) (xc.map P) (yc.map Q))
      (lv.map R)).length)
    (htrue : (List.zipWith (fun a b => a && b)
      (List.zipWith (fun a b => a && b) (xc.map P) (yc.map Q))
      (lv.map R))[i] = true) :
    P xc[i] = true ∧ Q yc[i] = true ∧ R lv[i] = true := by
  rw [List.getElem_zipWith, List.getElem_zipWith, List.getElem_map,
    List.getElem_map, List.getElem_map] at htrue
  simp only [Bool.and_eq_true] at htrue
  exact ⟨htrue.1.1, htrue.1.2, htrue.2⟩

/-- Claim C5: during cube assembly every cloud whose rounded voxel index
falls outside `[0, dim)` on any axis is excluded without an error —
`find_clouds_in_cube` succeeds and every surviving cloud it returns is
in-bounds on all three axes — and when zero clouds survive the bounds check,
`add_fluxes` returns the all-zero grid of dimensions
`(x_size, y_size, v_size)`. -/
theorem C5_bounds_and_empty (st : KState) (los : List ℚ) (cent : ℚ × ℚ × ℚ)
    (x2 y2 : List ℚ) (flux : Option (List ℚ)) (given : Bool) (ilen : ℕ)
    (h1 : los.length = x2.length) (h2 : y2.length = x2.length) :
    ∃ cs : List (ℤ × ℤ × ℤ) × List Bool,
      find_clouds_in_cube st los cent x2 y2 = .ok cs ∧
      (∀ t ∈ cs.1, inBounds3 st.x_size st.y_size st.v_size t) ∧
      (cs.2.count true = 0 →
        add_fluxes st flux given ilen cs.1 cs.2 =
          .ok (zeroCube st.x_size st.y_size st.v_size)) := by
  have hxc : (x2.map (fun x => roundEven (x + cent.1))).length = x2.length := by
    simp
  have hlen1 : (((x2.map (fun x => roundEven (x + cent.1))).map
      (fun i => decide (0 ≤ i ∧ i < (st.x_size : ℤ))))).length =
      ((y2.map (fun y => roundEven (y + cent.2.1))).map
      (fun j => decide (0 ≤ j ∧ j < (st.y_size : ℤ)))).length := by
    simp [h2]
  simp only [find_clouds_in_cube]
  rw [npZip_eq_ok _ _ _ hlen1]
  rw [ok_bind]
  rw [npZip_eq_ok _ _ _ (by simp [h1, h2])]
  rw [ok_bind]
  rw [npMask_eq_ok _ _ (by simp [h1, h2])]
  rw [ok_bind]
  rw [npMask_eq_ok _ _ (by simp [h1, h2])]
  rw [ok_bind]
  rw [npMask_eq_ok _ _ (by simp [h1, h2])]
  rw [ok_bind, pure_eq_ok]
  refine ⟨_, rfl, ?_, ?_⟩
  · intro t ht
    obtain ⟨ta, tb, tc⟩ := t
    obtain ⟨hta, htbc⟩ := List.of_mem_zip ht
    obtain ⟨htb, htc⟩ := List.of_mem_zip htbc
    obtain ⟨i, hia, him, hxi, hmi⟩ := mem_mask_getElem hta
    obtain ⟨j, hja, hjm, hyj, hmj⟩ := mem_mask_getElem htb
    obtain ⟨k, hka, hkm, hvk, hmk⟩ := mem_mask_getElem htc
    have hxa : ta ∈ (x2.map (fun x => roundEven (x + cent.1))) := by
      rw [← hxi]
      exact List.getElem_mem hia
    have hsubx := subs_extract (by simpa using hia)
      (by simp only [List.length_zipWith, List.length_map, h1, h2,
        min_self] at him ⊢; omega)
      (by simp only [List.length_zipWith, List.length_map, h1, h2,
        min_self] at him ⊢; omega) him hmi
    have hsuby := subs_extract
      (by simp only [List.length_zipWith, List.length_map, h1, h2,
        min_self] at hjm ⊢; omega)
      (by simpa using hja)
      (by simp only [List.length_zipWith, List.length_map, h1, h2,
        min_self] at hjm ⊢; omega) hjm hmj
    have hsubv := subs_extract
      (by simp only [List.length_zipWith, List.length_map, h1, h2,
        min_self] at hkm ⊢; omega)
      (by simp only [List.length_zipWith, List.length_map, h1, h2,
        min_self] at hkm ⊢; omega)
      (by simpa using hka) hkm hmk
    have hdx := hsubx.1
    have hdy := hsuby.2.1
    have hdv := hsubv.2.2
    rw [hxi] at hdx
    rw [hyj] at hdy
    rw [hvk] at hdv
    exact ⟨(of_decide_eq_true hdx).1, (of_decide_eq_true hdx).2,
      (of_decide_eq_true hdy).1, (of_decide_eq_true hdy).2,
      (of_decide_eq_true hdv).1, (of_decide_eq_true hdv).2⟩
  · intro h0
    simp only [add_fluxes, h0]
    simp

/-- Witness for C5 with a concrete in-bounds and a concrete out-of-bounds
cloud. -/
theorem C5_bounds_and_empty_witness :
    ([(0 : ℚ), 100].length = [(0 : ℚ), 0].length ∧
      [(0 : ℚ), 0].length = [(0 : ℚ), 0].length) ∧
    ∃ cs : List (ℤ × ℤ × ℤ) × List Bool,
      find_clouds_in_cube stW1 [(0 : ℚ), 100] (1, 1, 1) [(0 : ℚ), 0]
        [(0 : ℚ), 0] = .ok cs ∧
      (∀ t ∈ cs.1, inBounds3 stW1.x_size stW1.y_size stW1.v_size t) ∧
      (cs.2.count true = 0 →
        add_fluxes stW1 none false 0 cs.1 cs.2 =
          .ok (zeroCube stW1.x_size stW1.y_size stW1.v_size)) := by
  exact ⟨⟨rfl, rfl⟩, C5_bounds_and_empty stW1 [0, 100] (1, 1, 1) [0, 0] [0, 0]
    none false 0 rfl rfl⟩

/-! ## C3: warp-array length mismatches -/

theorem error_of_not_ok {α : Type} {X : NpRes α} (h : ∀ a, X ≠ .ok a) :
    ∃ e, X = .error e := by
  cases X with
  | ok a => exact absurd rfl (h a)
  | error e => exact ⟨e, rfl⟩

theorem npInterp_len_err (x xp fp : List ℚ) (h : xp.length ≠ fp.length) :
    npInterp x xp fp = .error (.valueError "fp and xp are not of the same length") := by
  unfold npInterp
  rw [if_pos h]

theorem create_warp_mismatch_err (arr r_flat : List ℚ) (c : ℚ)
    (sbRad velRad : List ℚ) (ha : 1 < arr.length)
    (h : arr.length ≠ velRad.length) :
    ∃ e, create_warp arr r_flat c sbRad velRad = .error e := by
  unfold create_warp
  rw [if_pos ha]
  by_cases hsb : sbRad.length ≠ velRad.length
  · rw [if_pos hsb]
    exact ⟨_, rfl⟩
  · rw [if_neg hsb]
    exact ⟨_, npInterp_len_err _ _ _ (Ne.symm h)⟩

theorem velfield_vposang_err (ctx : NumCtx) (st : KState) (cfg : ModelConfig)
    (vpc : ℚ × ℚ) (velProf velRad_pix x_pos y_pos r_flat : List ℚ)
    (given : Bool) (posAng_rad inc_rad : List ℚ)
    (ha : 1 < cfg.vPosAng.length) (h : cfg.vPosAng.length ≠ velRad_pix.length) :
    ∃ e, kinms_create_velField_oneSided ctx st cfg vpc velProf velRad_pix
      x_pos y_pos r_flat given posAng_rad inc_rad = .error e := by
  apply error_of_not_ok
  intro out hout
  simp only [kinms_create_velField_oneSided] at hout
  obtain ⟨vRad, hv, hout⟩ := bind_eq_ok hout
  obtain ⟨velDisp, hd, hout⟩ := bind_eq_ok hout
  obtain ⟨vpa, hvpa, hout⟩ := bind_eq_ok hout
  unfold resolve_vPosAng at hvpa
  rw [if_neg (by omega), if_neg (by omega)] at hvpa
  rw [npInterp_len_err _ _ _ (Ne.symm h)] at hvpa
  exact absurd hvpa (by simp)

theorem scv_mismatch_errors (ctx : NumCtx) (st : KState) (cfg : ModelConfig)
    (vpc : ℚ × ℚ) (x_pos y_pos z_pos r_flat : List ℚ)
    (h1 : cfg.vLOS_clouds = []) (h2 : warpMismatch cfg) :
    ∃ e, set_cloud_velocities ctx st cfg vpc x_pos y_pos z_pos r_flat =
      .error e := by
  apply error_of_not_ok
  intro out hout
  simp only [set_cloud_velocities] at hout
  rw [if_neg (by simp [h1])] at hout
  by_cases hvp : cfg.velProf.length = 0
  · rw [if_pos hvp] at hout
    exact absurd hout (by simp [throw_eq_error])
  · rw [if_neg hvp] at hout
    have hfold : (if cfg.velRad.length = 0 ∧ cfg.sbRad.length ≠ 0 then cfg.sbRad
        else cfg.velRad) = effVelRad cfg := rfl
    rw [hfold] at hout
    obtain ⟨velProf1, hvp1, hout⟩ := bind_eq_ok hout
    by_cases hpa : 1 < cfg.posAng.length ∧
        cfg.posAng.length ≠ (effVelRad cfg).length
    · rw [if_pos hpa] at hout
      exact absurd hout (by simp [throw_eq_error])
    · rw [if_neg hpa] at hout
      obtain ⟨par, hpar, hout⟩ := bind_eq_ok hout
      obtain ⟨inr, hinr, hout⟩ := bind_eq_ok hout
      rcases h2 with hP | hI | hV
      · exact hpa hP
      · obtain ⟨e, he⟩ := create_warp_mismatch_err cfg.inc r_flat st.cellSize
          cfg.sbRad (effVelRad cfg) hI.1 hI.2
        rw [he] at hinr
        exact absurd hinr (by simp)
      · obtain ⟨los, hlos, hout⟩ := bind_eq_ok hout
        obtain ⟨e, he⟩ := velfield_vposang_err ctx st cfg vpc velProf1
          ((effVelRad cfg).map (· / st.cellSize)) x_pos y_pos r_flat
          (decide (cfg.inClouds ≠ [])) par inr hV.1
          (by simpa using hV.2)
        rw [he] at hlos
        exact absurd hlos (by simp)

theorem run_mismatch_errors (ctx : NumCtx) (st : KState) (cfg : ModelConfig)
    (h1 : cfg.vLOS_clouds = []) (h2 : warpMismatch cfg) :
    ∃ e, model_cube_run ctx st cfg = .error e := by
  apply error_of_not_ok
  intro out hout
  simp only [model_cube_run] at hout
  split at hout
  case isTrue =>
    obtain ⟨inCl, hg, hout⟩ := bind_eq_ok hout
    obtain ⟨v4, hv4, hout⟩ := bind_eq_ok hout
    obtain ⟨e, he⟩ := scv_mismatch_errors ctx st cfg _ _ _ _ _ h1 h2
    rw [he] at hv4
    exact absurd hv4 (by simp)
  case isFalse =>
    obtain ⟨inCl, hg, hout⟩ := bind_eq_ok hout
    obtain ⟨v4, hv4, hout⟩ := bind_eq_ok hout
    obtain ⟨e, he⟩ := scv_mismatch_errors ctx st cfg _ _ _ _ _ h1 h2
    rw [he] at hv4
    exact absurd hv4 (by simp)

/-- Counterexample to claim C3 as stated: with an inclination warp of
length 2 against a rotation-profile radius grid of length 3 (and `sbRad`
matching `velRad`, so the only length guard in `create_warp` passes),
`model_cube` raises the numpy interpolation `ValueError`, not the single
invalid-model-configuration error `KinMSError`. -/
theorem C3_inc_valueerror_counterexample :
    cfgIncWarp.vLOS_clouds = [] ∧ warpMismatch cfgIncWarp ∧
    (model_cube ctxW stW1 cfgIncWarp).2 =
      .error (.valueError "fp and xp are not of the same length") ∧
    isKinmsErr (model_cube ctxW stW1 cfgIncWarp).2 = false := by
  refine ⟨rfl, ?_, ?_, ?_⟩
  · right; left
    with_unfolding_all decide
  · with_unfolding_all rfl
  · with_unfolding_all rfl

/-- Claim C3 amended: when line-of-sight velocities are not supplied
explicitly (so the warps are actually used), a warp parameter of length
above 1 whose length differs from the effective rotation-profile radius grid
(`velRad`, or `sbRad` when `velRad` is defaulted) makes `model_cube` raise
an error before producing any cube — but not always `KinMSError`: the
position-angle mismatch raises `KinMSError`; the inclination mismatch raises
`KinMSError` only when `sbRad` and `velRad` lengths differ and otherwise a
numpy interpolation `ValueError`; the kinematic-position-angle mismatch
raises the interpolation `ValueError`. -/
theorem C3_warp_mismatch_errors (ctx : NumCtx) (st : KState)
    (cfg : ModelConfig) (h1 : cfg.vLOS_clouds = []) (h2 : warpMismatch cfg) :
    ∃ e, (model_cube ctx st cfg).2 = .error e := by
  have hdef : (model_cube ctx st cfg).2 =
      model_cube_run ctx ((model_cube ctx st cfg).1) cfg := rfl
  obtain ⟨e, he⟩ := run_mismatch_errors ctx ((model_cube ctx st cfg).1) cfg h1 h2
  exact ⟨e, by rw [hdef, he]⟩

/-- Witness for the amended C3 at the concrete inclination-warp mismatch. -/
theorem C3_warp_mismatch_errors_witness :
    cfgIncWarp.vLOS_clouds = [] ∧ warpMismatch cfgIncWarp ∧
    ∃ e, (model_cube ctxW stW1 cfgIncWarp).2 = .error e := by
  have hm : warpMismatch cfgIncWarp := by
    right; left
    with_unfolding_all decide
  exact ⟨rfl, hm, C3_warp_mismatch_errors ctxW stW1 cfgIncWarp rfl hm⟩

/-! ## C9: the persistent `nSamps` overwrite and its consequence -/

theorem cumtrapzAux_length (acc : ℚ) (p : ℚ × ℚ) (l : List (ℚ × ℚ)) :
    (cumtrapzAux acc p l).length = l.length := by
  induction l generalizing acc p with
  | nil => rfl
  | cons q rest ih => simp [cumtrapzAux, ih]

theorem cumtrapz_length (y x : List ℚ) :
    (cumtrapz y x).length = min x.length y.length := by
  unfold cumtrapz
  cases hz : List.zip x y with
  | nil =>
      have := congrArg List.length hz
      simp only [List.length_zip, List.length_nil] at this
      simp [this]
  | cons p rest =>
      have := congrArg List.length hz
      simp only [List.length_zip, List.length_cons] at this
      simp [cumtrapzAux_length, this]

theorem npInterp_eq_ok (x xp fp : List ℚ) (hl : xp.length = fp.length)
    (hn : xp.length ≠ 0) :
    npInterp x xp fp = .ok (x.map (npInterpPoint xp fp)) := by
  unfold npInterp
  rw [if_neg (by omega), if_neg hn]

theorem npZip_right_single {α β γ : Type} (f : α → β → γ) (a : List α) (y : β)
    (h : a.length ≠ 1) :
    npZip f a [y] = .ok (a.map (fun x => f x y)) := by
  unfold npZip
  rw [if_neg (by simpa using h)]
  cases a with
  | nil => rfl
  | cons x t =>
      cases t with
      | nil => exact absurd rfl h
      | cons x2 t2 => rfl

theorem npZip_left_single {α β γ : Type} (f : α → β → γ) (x : α) (b : List β)
    (h : b.length ≠ 1) :
    npZip f [x] b = .ok (b.map (fun y => f x y)) := by
  unfold npZip
  rw [if_neg (by simp; omega)]
  cases b with
  | nil => rfl
  | cons y t =>
      cases t with
      | nil => exact absurd rfl h
      | cons y2 t2 => rfl

theorem npSetCol_err {α : Type} (n : ℕ) (v : List α) (h1 : v.length ≠ n)
    (h2 : v.length ≠ 1) :
    npSetCol n v = .error (.valueError "could not broadcast input array") := by
  unfold npSetCol
  rw [if_neg h1]
  cases v with
  | nil => rfl
  | cons a t =>
      cases t with
      | nil => exact absurd rfl h2
      | cons b t2 => rfl

theorem sample_z_pos_thin (ctx : NumCtx) (st : KState)
    (sbRad diskThick r_flat : List ℚ) (nS : ℕ)
    (h6 : ∀ t ∈ diskThick, t = 0) :
    sample_z_pos ctx st sbRad diskThick r_flat nS = .ok [0] := by
  have hcond : diskThick.any (fun t => decide (t ≠ 0)) = false := by
    rw [List.any_eq_false]
    intro t ht
    simpa using h6 t ht
  unfold sample_z_pos
  rw [hcond]
  simp only [Bool.false_eq_true, if_false]
  rfl

theorem sampler_stream_mismatch (ctx : NumCtx) (st2 : KState)
    (sbRad sbProf diskThick : List ℚ) (nS : ℕ)
    (h3 : sbRad ≠ []) (h5 : sbRad.length = sbProf.length)
    (h6 : ∀ t ∈ diskThick, t = 0)
    (h7 : st2.randompick_phi.length = st2.randompick_r.length)
    (h8 : st2.randompick_r.length ≠ nS)
    (h9 : st2.randompick_r.length ≠ 1) :
    kinms_sampleFromArbDist_oneSided ctx st2 sbRad sbProf nS diskThick =
      .error (.valueError "could not broadcast input array") := by
  simp only [kinms_sampleFromArbDist_oneSided]
  rw [npZip_eq_ok _ _ _ (by simp [h5.symm])]
  rw [ok_bind]
  rw [npInterp_eq_ok _ _ _
    (by simp [cumtrapz_length, List.length_zipWith, List.length_map,
      h5.symm, min_self])
    (by simp [cumtrapz_length, List.length_zipWith, List.length_map,
      h5.symm, min_self, List.length_eq_zero, h3])]
  rw [ok_bind]
  rw [sample_z_pos_thin _ _ _ _ _ _ h6]
  rw [ok_bind]
  rw [npZip_right_single _ _ _ (by simpa using h9)]
  rw [ok_bind]
  rw [npZip_left_single _ _ _ (by simpa using h9)]
  rw [ok_bind]
  rw [npZip_eq_ok _ _ _ (by simp [h7])]
  rw [ok_bind]
  rw [npZip_eq_ok _ _ _ (by simp [h7])]
  rw [ok_bind]
  rw [npZip_eq_ok _ _ _ (by simp [h7])]
  rw [ok_bind]
  rw [npZip_eq_ok _ _ _ (by simp [h7])]
  rw [ok_bind]
  rw [npSetCol_err _ _
    (by simp only [List.length_zipWith, List.length_map, h7, min_self]
        exact h8)
    (by simp only [List.length_zipWith, List.length_map, h7, min_self]
        exact h9)]
  rw [error_bind]

/-- Counterexample to claim C9 as stated: on an instance with 3 pre-drawn
samples per stream, a call with 2 explicit clouds overwrites `nSamps` to 2;
the subsequent profile-based call does not sample 2 cloudlets — it draws
positions from the full 3-long streams and then fails to assign them into
`np.empty((2, 3))`, raising a broadcast `ValueError` rather than producing
a cube (and the dispersion stream is never sliced on the profile-based
path). -/
theorem C9_subsequent_call_crashes :
    ((model_cube ctxW stW3 cfgClouds2).1).nSamps = 2 ∧
    (model_cube ctxW ((model_cube ctxW stW3 cfgClouds2).1) cfgProfile).2 =
      .error (.valueError "could not broadcast input array") := by
  constructor
  · with_unfolding_all rfl
  · with_unfolding_all rfl

/-- Claim C9 amended: a `model_cube` call with explicit clouds permanently
overwrites the instance's `nSamps` with the supplied cloud count, and the
mutation persists after the call; but a subsequent profile-based call does
not sample that many cloudlets — it interpolates positions from the full
construction-time streams and then fails with a numpy broadcast
`ValueError` whenever the mutated count differs from the stream length (and
differs from 1, where numpy would broadcast); the pre-drawn dispersion
stream is sliced to `nSamps` only when explicit clouds are given, never on
the profile-based path. -/
theorem C9_nsamps_mutation_persists (ctx : NumCtx) (st : KState)
    (cfg cfg2 : ModelConfig) (hgiven : cfg.inClouds ≠ [])
    (h2 : cfg2.inClouds = [])
    (h3 : cfg2.sbRad ≠ []) (h5 : cfg2.sbRad.length = cfg2.sbProf.length)
    (h6 : ∀ t ∈ cfg2.diskThick, t = 0)
    (h7 : st.randompick_phi.length = st.randompick_r.length)
    (h8 : st.randompick_r.length ≠ cfg.inClouds.length)
    (h9 : st.randompick_r.length ≠ 1) :
    ((model_cube ctx st cfg).1).nSamps = cfg.inClouds.length ∧
    (model_cube ctx ((model_cube ctx st cfg).1) cfg2).2 =
      .error (.valueError "could not broadcast input array") := by
  have hst1 : (model_cube ctx st cfg).1 =
      { st with nSamps := cfg.inClouds.length } := by
    simp [model_cube, hgiven]
  refine ⟨by rw [hst1], ?_⟩
  rw [hst1]
  have hrun : (model_cube ctx { st with nSamps := cfg.inClouds.length } cfg2).2 =
      model_cube_run ctx { st with nSamps := cfg.inClouds.length } cfg2 := by
    simp [model_cube, h2]
  rw [hrun]
  simp only [model_cube_run]
  rw [if_pos (by simp [h2])]
  simp only [generate_cloudlets]
  have hlen3 : cfg2.sbRad.length ≠ 0 := by simpa [List.length_eq_zero] using h3
  rw [if_neg (by push_neg; omega)]
  rw [if_neg (by simp [h5])]
  rw [sampler_stream_mismatch ctx { st with nSamps := cfg.inClouds.length }
    cfg2.sbRad cfg2.sbProf cfg2.diskThick
    ({ st with nSamps := cfg.inClouds.length } : KState).nSamps
    h3 h5 h6 h7 h8 h9]
  rw [error_bind]

/-- Witness for the amended C9 at the concrete instance and configurations
of the counterexample. -/
theorem C9_nsamps_mutation_persists_witness :
    (cfgClouds2.inClouds ≠ [] ∧ cfgProfile.inClouds = [] ∧
      stW3.randompick_r.length ≠ cfgClouds2.inClouds.length) ∧
    ((model_cube ctxW stW3 cfgClouds2).1).nSamps = cfgClouds2.inClouds.length ∧
    (model_cube ctxW ((model_cube ctxW stW3 cfgClouds2).1) cfgProfile).2 =
      .error (.valueError "could not broadcast input array") := by
  refine ⟨⟨by with_unfolding_all decide, by with_unfolding_all decide,
    by with_unfolding_all decide⟩, ?_⟩
  have hthin : ∀ t ∈ cfgProfile.diskThick, t = 0 := by
    intro t ht
    have hdt : cfgProfile.diskThick = [0] := by with_unfolding_all rfl
    rw [hdt] at ht
    simpa using ht
  exact C9_nsamps_mutation_persists ctxW stW3 cfgClouds2 cfgProfile
    (by with_unfolding_all decide) (by with_unfolding_all decide)
    (by with_unfolding_all decide) (by with_unfolding_all decide)
    hthin (by with_unfolding_all decide)
    (by with_unfolding_all decide) (by with_unfolding_all decide)

/-! ## C6: the round-trip property -/

theorem npSetCol_ok_length {α : Type} {n : ℕ} {v w : List α}
    (h : npSetCol n v = .ok w) : w.length = n := by
  unfold npSetCol at h
  split at h
  · simp only [Except.ok.injEq] at h
    subst h
    assumption
  · split at h
    · simp only [Except.ok.injEq] at h
      subst h
      simp
    · simp at h

theorem npSetCol_eq_self {α : Type} {n : ℕ} (v : List α) (h : v.length = n) :
    npSetCol n v = .ok v := by
  unfold npSetCol
  rw [if_pos h]

theorem zipW3_length {α β γ δ : Type} (f : α → β → γ → δ) :
    ∀ (a : List α) (b : List β) (c : List γ),
    (zipW3 f a b c).length = min a.length (min b.length c.length) := by
  intro a
  induction a with
  | nil => intro b c; simp [zipW3]
  | cons x t ih =>
      intro b c
      cases b with
      | nil => simp [zipW3]
      | cons y tb =>
          cases c with
          | nil => simp [zipW3]
          | cons z tc =>
              simp only [zipW3, List.length_cons, ih]
              omega

theorem zip3Cloud_length (a b c : List ℚ) :
    (zip3Cloud a b c).length = min a.length (min b.length c.length) := by
  rw [zip3Cloud_eq_zip]
  simp [List.length_zip]

theorem npInterp_ok_length {x xp fp w : List ℚ} (h : npInterp x xp fp = .ok w) :
    w.length = x.length := by
  unfold npInterp at h
  split at h
  · simp at h
  · split at h
    · simp at h
    · simp only [Except.ok.injEq] at h
      subst h
      simp

theorem npZip_ok_cases {α β γ : Type} {f : α → β → γ} {a : List α}
    {b : List β} {z : List γ} (h : npZip f a b = .ok z) :
    (a.length = b.length ∧ z = List.zipWith f a b) ∨
    (a.length ≠ b.length ∧ a.length = 1 ∧ z.length = b.length) ∨
    (a.length ≠ b.length ∧ b.length = 1 ∧ z.length = a.length) := by
  unfold npZip at h
  split at h
  · left
    simp only [Except.ok.injEq] at h
    exact ⟨by assumption, h.symm⟩
  · split at h
    · right; left
      simp only [Except.ok.injEq] at h
      subst h
      exact ⟨by assumption, rfl, by simp⟩
    · right; right
      simp only [Except.ok.injEq] at h
      subst h
      exact ⟨by assumption, rfl, by simp⟩
    · simp at h

theorem npZip_ok_length_of_eq {α β γ : Type} {f : α → β → γ} {a : List α}
    {b : List β} {z : List γ} (h : npZip f a b = .ok z)
    (hab : a.length = b.length) : z.length = a.length := by
  rcases npZip_ok_cases h with ⟨_, rfl⟩ | ⟨hne, _, _⟩ | ⟨hne, _, _⟩
  · simp [hab]
  · exact absurd hab hne
  · exact absurd hab hne

theorem npMask_ok_length {α : Type} {a : List α} {m : List Bool} {w : List α}
    (h : npMask a m = .ok w) : a.length = m.length := by
  unfold npMask at h
  split at h
  · assumption
  · simp at h

theorem create_warp_ok_length {arr r_flat : List ℚ} {c : ℚ}
    {sbRad velRad w : List ℚ}
    (h : create_warp arr r_flat c sbRad velRad = .ok w) :
    w.length = r_flat.length := by
  unfold create_warp at h
  split at h
  · split at h
    · simp at h
    · have := npInterp_ok_length h
      simpa using this
  · split at h
    · simp only [Except.ok.injEq] at h
      subst h
      simp
    · simp at h

theorem sampler_ok_length {ctx : NumCtx} {st : KState} {sbRad sbProf : List ℚ}
    {nS : ℕ} {diskThick : List ℚ} {clouds : List (ℚ × ℚ × ℚ)}
    (h : kinms_sampleFromArbDist_oneSided ctx st sbRad sbProf nS diskThick =
      .ok clouds) : clouds.length = nS := by
  rw [kinms_sampleFromArbDist_oneSided] at h
  obtain ⟨integrand, h1, h⟩ := bind_eq_ok h
  obtain ⟨r_flat, h2, h⟩ := bind_eq_ok h
  obtain ⟨z_pos, hz, h⟩ := bind_eq_ok h
  obtain ⟨r3sq, h4, h⟩ := bind_eq_ok h
  obtain ⟨zratio, h5, h⟩ := bind_eq_ok h
  obtain ⟨xc, h6, h⟩ := bind_eq_ok h
  obtain ⟨x_pos, h7, h⟩ := bind_eq_ok h
  obtain ⟨yc, h8, h⟩ := bind_eq_ok h
  obtain ⟨y_pos, h9, h⟩ := bind_eq_ok h
  obtain ⟨col0, h10, h⟩ := bind_eq_ok h
  obtain ⟨col1, h11, h⟩ := bind_eq_ok h
  obtain ⟨col2, h12, h⟩ := bind_eq_ok h
  rw [pure_eq_ok] at h
  simp only [Except.ok.injEq] at h
  subst h
  rw [zip3Cloud_length, npSetCol_ok_length h10, npSetCol_ok_length h11,
    npSetCol_ok_length h12]
  simp

theorem scv_ok_lengths {ctx : NumCtx} {st : KState} {cfg : ModelConfig}
    {vpc : ℚ × ℚ} {x_pos y_pos z_pos r_flat : List ℚ}
    {v4 : List ℚ × List ℚ × List ℚ × List ℚ}
    (hxy : y_pos.length = x_pos.length) (hz : z_pos.length = x_pos.length)
    (hr : r_flat.length = x_pos.length)
    (h : set_cloud_velocities ctx st cfg vpc x_pos y_pos z_pos r_flat = .ok v4) :
    v4.1.length = x_pos.length ∧ v4.2.1.length = x_pos.length ∧
      v4.2.2.1.length = x_pos.length := by
  simp only [set_cloud_velocities] at h
  split at h
  · rw [pure_eq_ok] at h
    simp only [Except.ok.injEq] at h
    subst h
    exact ⟨rfl, hxy, hz⟩
  · split at h
    · simp [throw_eq_error] at h
    · set velRad := if cfg.velRad.length = 0 ∧ cfg.sbRad.length ≠ 0 then cfg.sbRad
        else cfg.velRad with hvr
      obtain ⟨velProf1, hvp1, h⟩ := bind_eq_ok h
      split at h
      · simp [throw_eq_error] at h
      · obtain ⟨par, hpar, h⟩ := bind_eq_ok h
        obtain ⟨inr, hinr, h⟩ := bind_eq_ok h
        obtain ⟨los, hlos, h⟩ := bind_eq_ok h
        rw [pure_eq_ok] at h
        simp only [Except.ok.injEq] at h
        subst h
        have hparl := create_warp_ok_length hpar
        have hinrl := create_warp_ok_length hinr
        simp only [inclination_projection, position_angle_rotation]
        refine ⟨?_, ?_, ?_⟩ <;>
          · simp only [zipW3_length]
            omega

theorem find_ok_lengths {st : KState} {los : List ℚ} {cent : ℚ × ℚ × ℚ}
    {x2 y2 : List ℚ} {p : List (ℤ × ℤ × ℤ) × List Bool}
    (hxy : y2.length = x2.length)
    (h : find_clouds_in_cube st los cent x2 y2 = .ok p) :
    los.length = x2.length ∧ p.2.length = x2.length := by
  simp only [find_clouds_in_cube] at h
  obtain ⟨s1, hs1, h⟩ := bind_eq_ok h
  obtain ⟨subs, hsubs, h⟩ := bind_eq_ok h
  obtain ⟨cx, hcx, h⟩ := bind_eq_ok h
  obtain ⟨cy, hcy, h⟩ := bind_eq_ok h
  obtain ⟨cv, hcv, h⟩ := bind_eq_ok h
  rw [pure_eq_ok] at h
  simp only [Except.ok.injEq] at h
  subst h
  have hxcs : x2.length = subs.length := by simpa using npMask_ok_length hcx
  have hlvs : los.length = subs.length := by simpa using npMask_ok_length hcv
  exact ⟨by omega, by simpa using hxcs.symm⟩

theorem add_fluxes_zero {st : KState} {flux : Option (List ℚ)} {given : Bool}
    {ilen : ℕ} {c : List (ℤ × ℤ × ℤ)} {s : List Bool}
    (h0 : s.count true = 0) :
    add_fluxes st flux given ilen c s =
      .ok (zeroCube st.x_size st.y_size st.v_size) := by
  unfold add_fluxes
  rw [h0]
  simp

theorem add_fluxes_ok_transfer {st : KState} {fc : Option (List ℚ)}
    {g1 g2 : Bool} {l1 l2 : ℕ} {c : List (ℤ × ℤ × ℤ)} {s : List Bool}
    {cube0 : Cube}
    (hadd : add_fluxes st fc g1 l1 c s = .ok cube0)
    (hg2 : g2 = true)
    (hll : 0 < s.count true → fc ≠ none → l1 = l2) :
    add_fluxes st fc g2 l2 c s = .ok cube0 := by
  by_cases h0 : 0 < s.count true
  · unfold add_fluxes at hadd ⊢
    rw [if_pos h0] at hadd ⊢
    cases fc with
    | none => exact hadd
    | some f =>
        have hl := hll h0 (by simp)
        subst hl
        simp only at hadd ⊢
        by_cases hg1 : g1 = true
        · rw [hg1] at hadd
          rw [hg2]
          exact hadd
        · simp only [Bool.not_eq_true] at hg1
          rw [hg1] at hadd
          simp at hadd
  · unfold add_fluxes at hadd ⊢
    rw [if_neg h0] at hadd ⊢
    exact hadd

theorem zip3Cloud_cons (x y z : ℚ) (t tb tc : List ℚ) :
    zip3Cloud (x :: t) (y :: tb) (z :: tc) = (x, y, z) :: zip3Cloud t tb tc :=
  rfl

theorem zip3Cloud_map_fst (f : ℚ → ℚ) (a b c : List ℚ)
    (h1 : b.length = a.length) (h2 : c.length = a.length) :
    (zip3Cloud a b c).map (fun p => f p.1) = a.map f := by
  induction a generalizing b c with
  | nil => simp [zip3Cloud]
  | cons x t ih =>
      cases b with
      | nil => simp at h1
      | cons y tb =>
          cases c with
          | nil => simp at h2
          | cons z tc =>
              simp only [zip3Cloud_cons, List.map_cons]
              rw [ih tb tc (by simpa using h1) (by simpa using h2)]

theorem zip3Cloud_map_snd1 (f : ℚ → ℚ) (a b c : List ℚ)
    (h1 : b.length = a.length) (h2 : c.length = a.length) :
    (zip3Cloud a b c).map (fun p => f p.2.1) = b.map f := by
  induction a generalizing b c with
  | nil =>
      cases b with
      | nil => simp [zip3Cloud]
      | cons y tb => simp at h1
  | cons x t ih =>
      cases b with
      | nil => simp at h1
      | cons y tb =>
          cases c with
          | nil => simp at h2
          | cons z tc =>
              simp only [zip3Cloud_cons, List.map_cons]
              rw [ih tb tc (by simpa using h1) (by simpa using h2)]

theorem zip3Cloud_map_snd2 (f : ℚ → ℚ) (a b c : List ℚ)
    (h1 : b.length = a.length) (h2 : c.length = a.length) :
    (zip3Cloud a b c).map (fun p => f p.2.2) = c.map f := by
  induction a generalizing b c with
  | nil =>
      cases c with
      | nil => simp [zip3Cloud]
      | cons z tc => simp at h2
  | cons x t ih =>
      cases b with
      | nil => simp at h1
      | cons y tb =>
          cases c with
          | nil => simp at h2
          | cons z tc =>
              simp only [zip3Cloud_cons, List.map_cons]
              rw [ih tb tc (by simpa using h1) (by simpa using h2)]

theorem map_mul_div_cancel {c : ℚ} (hc : c ≠ 0) (l : List ℚ) :
    (l.map (fun q => q * c)).map (fun q => q / c) = l := by
  rw [List.map_map]
  have hcong : ∀ a ∈ l, ((fun q => q / c) ∘ fun q => q * c) a = id a := by
    intro a _
    simp [Function.comp, mul_div_cancel_right₀ _ hc]
  rw [List.map_congr_left hcong, List.map_id]

theorem KState_eta (s : KState) : { s with nSamps := s.nSamps } = s := rfl

theorem cfg_eta (cfg : ModelConfig) :
    { cfg with inClouds := cfg.inClouds, vLOS_clouds := cfg.vLOS_clouds } =
      cfg := rfl

theorem generate_cloudlets_ok_length {ctx : NumCtx} {st : KState}
    {cfg : ModelConfig} {l : List (ℚ × ℚ × ℚ)}
    (h : generate_cloudlets ctx st cfg = .ok l) : l.length = st.nSamps := by
  unfold generate_cloudlets at h
  split at h
  · simp at h
  · split at h
    · simp at h
    · exact sampler_ok_length h

theorem add_fluxes_ok_flux_none {st : KState} {fc : Option (List ℚ)} {l : ℕ}
    {c : List (ℤ × ℤ × ℤ)} {s : List Bool} {cube0 : Cube}
    (h : add_fluxes st fc false l c s = .ok cube0)
    (h0 : 0 < s.count true) : fc = none := by
  cases fc with
  | none => rfl
  | some f =>
      unfold add_fluxes at h
      rw [if_pos h0] at h
      simp at h

theorem scv_los_empty {ctx : NumCtx} {st : KState} {cfg : ModelConfig}
    {vpc : ℚ × ℚ} {x_pos y_pos z_pos r_flat : List ℚ}
    {v4 : List ℚ × List ℚ × List ℚ × List ℚ}
    (h : set_cloud_velocities ctx st cfg vpc x_pos y_pos z_pos r_flat = .ok v4)
    (h0 : v4.2.2.2.length = 0) : cfg.vLOS_clouds = [] := by
  simp only [set_cloud_velocities] at h
  split at h
  next hcond =>
    rw [pure_eq_ok] at h
    simp only [Except.ok.injEq] at h
    subst h
    simpa [List.length_eq_zero] using h0
  next hcond =>
    exact List.length_eq_zero.mp (not_not.mp hcond)

theorem zip3Cloud_map_div1 (d : ℚ) (a b c : List ℚ)
    (h1 : b.length = a.length) (h2 : c.length = a.length) :
    (zip3Cloud a b c).map (fun p => p.1 / d) = a.map (fun q => q / d) :=
  zip3Cloud_map_fst (fun q => q / d) a b c h1 h2

theorem zip3Cloud_map_div2 (d : ℚ) (a b c : List ℚ)
    (h1 : b.length = a.length) (h2 : c.length = a.length) :
    (zip3Cloud a b c).map (fun p => p.2.1 / d) = b.map (fun q => q / d) :=
  zip3Cloud_map_snd1 (fun q => q / d) a b c h1 h2

theorem zip3Cloud_map_div3 (d : ℚ) (a b c : List ℚ)
    (h1 : b.length = a.length) (h2 : c.length = a.length) :
    (zip3Cloud a b c).map (fun p => p.2.2 / d) = c.map (fun q => q / d) :=
  zip3Cloud_map_snd2 (fun q => q / d) a b c h1 h2

theorem run_with_clouds_roundtrip (ctx : NumCtx) (S : KState)
    (cfg : ModelConfig) (out : KOutput) (inCl : List (ℚ × ℚ × ℚ))
    (hc : S.cellSize ≠ 0) (hlen : inCl.length = S.nSamps)
    (hcfg : cfg.inClouds ≠ [] → cfg.inClouds.length = S.nSamps)
    (h : run_with_clouds ctx S cfg inCl = .ok out) :
    out.retClouds.length = S.nSamps ∧ out.los_vel.length = S.nSamps ∧
      (S.nSamps = 0 → cfg.vLOS_clouds = []) ∧
      (0 < S.nSamps →
        run_with_clouds ctx S
          { cfg with
              inClouds := out.retClouds, vLOS_clouds := out.los_vel }
          out.retClouds = .ok out) := by
  simp only [run_with_clouds] at h
  obtain ⟨v4, hscv, h⟩ := bind_eq_ok h
  obtain ⟨x2, y2, z2, los⟩ := v4
  obtain ⟨hx2, hy2, hz2⟩ := scv_ok_lengths (by simp) (by simp) (by simp) hscv
  have hx2n : x2.length = S.nSamps := by simpa [hlen] using hx2
  have hy2n : y2.length = S.nSamps := by simpa [hlen] using hy2
  have hz2n : z2.length = S.nSamps := by simpa [hlen] using hz2
  simp only [assemble] at h
  obtain ⟨fc, hfind, h⟩ := bind_eq_ok h
  obtain ⟨cube0, hadd, h⟩ := bind_eq_ok h
  obtain ⟨r0, hr0, h⟩ := bind_eq_ok h
  obtain ⟨r1, hr1, h⟩ := bind_eq_ok h
  obtain ⟨r2, hr2, h⟩ := bind_eq_ok h
  rw [pure_eq_ok] at h
  simp only [Except.ok.injEq] at h
  subst h
  obtain ⟨hlosx, -⟩ := find_ok_lengths (by omega) hfind
  have hlosn : los.length = S.nSamps := by omega
  rw [npSetCol_eq_self (x2.map (fun q => q * S.cellSize)) (by simp [hx2n])]
    at hr0
  rw [npSetCol_eq_self (y2.map (fun q => q * S.cellSize)) (by simp [hy2n])]
    at hr1
  rw [npSetCol_eq_self (z2.map (fun q => q * S.cellSize)) (by simp [hz2n])]
    at hr2
  injection hr0 with hr0e
  injection hr1 with hr1e
  injection hr2 with hr2e
  subst hr0e
  subst hr1e
  subst hr2e
  have hRlen : (zip3Cloud (x2.map (fun q => q * S.cellSize))
      (y2.map (fun q => q * S.cellSize))
      (z2.map (fun q => q * S.cellSize))).length = S.nSamps := by
    rw [zip3Cloud_length]
    simp only [List.length_map]
    omega
  refine ⟨by simpa using hRlen, by simpa using hlosn, ?_, ?_⟩
  · intro h0
    exact scv_los_empty hscv (by simp only; omega)
  · intro hpos
    have hR1 : (zip3Cloud (x2.map (fun q => q * S.cellSize))
        (y2.map (fun q => q * S.cellSize))
        (z2.map (fun q => q * S.cellSize))).map
          (fun c => c.1 / S.cellSize) = x2 := by
      rw [zip3Cloud_map_div1 S.cellSize _ _ _
          (by simp only [List.length_map]; omega)
          (by simp only [List.length_map]; omega),
        map_mul_div_cancel hc]
    have hR2 : (zip3Cloud (x2.map (fun q => q * S.cellSize))
        (y2.map (fun q => q * S.cellSize))
        (z2.map (fun q => q * S.cellSize))).map
          (fun c => c.2.1 / S.cellSize) = y2 := by
      rw [zip3Cloud_map_div2 S.cellSize _ _ _
          (by simp only [List.length_map]; omega)
          (by simp only [List.length_map]; omega),
        map_mul_div_cancel hc]
    have hR3 : (zip3Cloud (x2.map (fun q => q * S.cellSize))
        (y2.map (fun q => q * S.cellSize))
        (z2.map (fun q => q * S.cellSize))).map
          (fun c => c.2.2 / S.cellSize) = z2 := by
      rw [zip3Cloud_map_div3 S.cellSize _ _ _
          (by simp only [List.length_map]; omega)
          (by simp only [List.length_map]; omega),
        map_mul_div_cancel hc]
    simp only [run_with_clouds]
    rw [hR1, hR2, hR3]
    simp only [set_cloud_velocities]
    rw [if_pos (show los.length ≠ 0 by omega)]
    rw [pure_eq_ok, ok_bind]
    simp only [assemble]
    rw [hfind, ok_bind]
    have hRne : zip3Cloud (x2.map (fun q => q * S.cellSize))
        (y2.map (fun q => q * S.cellSize))
        (z2.map (fun q => q * S.cellSize)) ≠ [] := by
      intro hnil
      rw [hnil] at hRlen
      simp at hRlen
      omega
    have hadd2 : add_fluxes S cfg.flux_clouds
        (decide (zip3Cloud (x2.map (fun q => q * S.cellSize))
          (y2.map (fun q => q * S.cellSize))
          (z2.map (fun q => q * S.cellSize)) ≠ []))
        (zip3Cloud (x2.map (fun q => q * S.cellSize))
          (y2.map (fun q => q * S.cellSize))
          (z2.map (fun q => q * S.cellSize))).length
        fc.1 fc.2 = .ok cube0 := by
      apply add_fluxes_ok_transfer hadd
      · rw [decide_eq_true_eq]
        exact hRne
      · intro hcnt hfc
        by_cases hce : cfg.inClouds = []
        · have hg1 : decide (cfg.inClouds ≠ []) = false := by simp [hce]
          rw [hg1] at hadd
          exact absurd (add_fluxes_ok_flux_none hadd hcnt) hfc
        · rw [hcfg hce, hRlen]
    rw [hadd2, ok_bind]
    rw [npSetCol_eq_self (x2.map (fun q => q * S.cellSize)) (by simp [hx2n]),
      ok_bind]
    rw [npSetCol_eq_self (y2.map (fun q => q * S.cellSize)) (by simp [hy2n]),
      ok_bind]
    rw [npSetCol_eq_self (z2.map (fun q => q * S.cellSize)) (by simp [hz2n]),
      ok_bind]
    rfl

/-- Claim C6: for every configuration over an instance with a nonzero pixel
size, feeding the cloud positions and line-of-sight velocities returned by a
successful `model_cube` call back into `model_cube` as explicit `inClouds`
and `vLOS_clouds` (bypassing profile sampling and projection) reproduces
exactly the same output, cube included. -/
theorem C6_roundtrip (ctx : NumCtx) (st : KState) (cfg : ModelConfig)
    (out : KOutput) (hc : st.cellSize ≠ 0)
    (h : (model_cube ctx st cfg).2 = .ok out) :
    (model_cube ctx ((model_cube ctx st cfg).1)
      { cfg with
          inClouds := out.retClouds, vLOS_clouds := out.los_vel }).2 =
      .ok out := by
  by_cases hgiven : cfg.inClouds = []
  · have hS : (model_cube ctx st cfg).1 = st := by simp [model_cube, hgiven]
    have h2 : model_cube_run ctx st cfg = .ok out := by
      have he : (model_cube ctx st cfg).2 = model_cube_run ctx st cfg := by
        simp [model_cube, hgiven]
      rw [he] at h
      exact h
    rw [hS]
    have hlt : cfg.inClouds.length < 1 := by simp [hgiven]
    simp only [model_cube_run] at h2
    rw [if_pos hlt] at h2
    obtain ⟨inCl, hgen, h2⟩ := bind_eq_ok h2
    have hlen : inCl.length = st.nSamps := generate_cloudlets_ok_length hgen
    obtain ⟨hret, hlos, h0, hrest⟩ :=
      run_with_clouds_roundtrip ctx st cfg out inCl hc hlen
        (fun hne => absurd hgiven hne) h2
    by_cases hn : st.nSamps = 0
    · have hr : out.retClouds = [] := List.length_eq_zero.mp (by omega)
      have hl : out.los_vel = [] := List.length_eq_zero.mp (by omega)
      have hv := h0 hn
      have hcfg2 : ({ cfg with
          inClouds := out.retClouds, vLOS_clouds := out.los_vel } :
            ModelConfig) = cfg := by
        rw [hr, hl, ← hgiven, ← hv]
      rw [hcfg2]
      exact h
    · have hpos : 0 < st.nSamps := Nat.pos_of_ne_zero hn
      have hrun2 := hrest hpos
      have hne : out.retClouds ≠ [] := by
        intro hnil
        rw [hnil] at hret
        simp at hret
        omega
      have hne2 : ({ cfg with
          inClouds := out.retClouds, vLOS_clouds := out.los_vel } :
            ModelConfig).inClouds ≠ [] := by simpa using hne
      have hl2 : ({ cfg with
          inClouds := out.retClouds, vLOS_clouds := out.los_vel } :
            ModelConfig).inClouds.length = st.nSamps := by simpa using hret
      simp only [model_cube]
      rw [if_pos hne2, hl2]
      simp only [model_cube_run]
      rw [if_neg (show ¬ ({ cfg with
          inClouds := out.retClouds, vLOS_clouds := out.los_vel } :
            ModelConfig).inClouds.length < 1 by simp only [hl2]; omega)]
      rw [pure_eq_ok, ok_bind]
      exact hrun2
  · have hS : (model_cube ctx st cfg).1 =
        { st with nSamps := cfg.inClouds.length } := by
      simp [model_cube, hgiven]
    have h2 : model_cube_run ctx { st with nSamps := cfg.inClouds.length }
        cfg = .ok out := by
      have he : (model_cube ctx st cfg).2 =
          model_cube_run ctx { st with nSamps := cfg.inClouds.length } cfg := by
        simp [model_cube, hgiven]
      rw [he] at h
      exact h
    rw [hS]
    have hlt : ¬ cfg.inClouds.length < 1 := by
      have : cfg.inClouds.length ≠ 0 := by
        simpa [List.length_eq_zero] using hgiven
      omega
    simp only [model_cube_run] at h2
    rw [if_neg hlt, pure_eq_ok, ok_bind] at h2
    obtain ⟨hret, hlos, h0, hrest⟩ :=
      run_with_clouds_roundtrip ctx { st with nSamps := cfg.inClouds.length }
        cfg out cfg.inClouds hc rfl (fun _ => rfl) h2
    have hpos : 0 < ({ st with nSamps := cfg.inClouds.length } :
        KState).nSamps := by
      show 0 < cfg.inClouds.length
      have : cfg.inClouds.length ≠ 0 := by
        simpa [List.length_eq_zero] using hgiven
      omega
    have hrun2 := hrest hpos
    have hne : out.retClouds ≠ [] := by
      intro hnil
      rw [hnil] at hret
      simp at hret
      omega
    have hne2 : ({ cfg with
        inClouds := out.retClouds, vLOS_clouds := out.los_vel } :
          ModelConfig).inClouds ≠ [] := by simpa using hne
    have hl2 : ({ cfg with
        inClouds := out.retClouds, vLOS_clouds := out.los_vel } :
          ModelConfig).inClouds.length = cfg.inClouds.length := by
      simpa using hret
    simp only [model_cube]
    rw [if_pos hne2, hl2]
    simp only [model_cube_run]
    rw [if_neg (show ¬ ({ cfg with
        inClouds := out.retClouds, vLOS_clouds := out.los_vel } :
          ModelConfig).inClouds.length < 1 by simp only [hl2]; omega)]
    rw [pure_eq_ok, ok_bind]
    exact hrun2

/-- Witness for C6 at the concrete one-cloud explicit configuration: the
round trip through the returned clouds and velocities reproduces the
output. -/
theorem C6_roundtrip_witness :
    (stW1.cellSize ≠ 0 ∧ (model_cube ctxW stW1 cfgClouds1).2 = .ok outW1) ∧
    (model_cube ctxW ((model_cube ctxW stW1 cfgClouds1).1)
      { cfgClouds1 with
          inClouds := outW1.retClouds, vLOS_clouds := outW1.los_vel }).2 =
      .ok outW1 := by
  refine ⟨⟨by with_unfolding_all decide, by with_unfolding_all rfl⟩, ?_⟩
  exact C6_roundtrip ctxW stW1 cfgClouds1 outW1 (by with_unfolding_all decide)
    (by with_unfolding_all rfl)

end KinMSpy
